import Mathlib

/-!
Verification development for the zquant trading system core:
shallow embedding of the matching-engine order book, the lock-free
SPSC ring queue, the snapshot synthesizer, the client-side market
order book with its BBO cache, and the order-manager / risk /
market-maker layer, together with theorems settling the spec claims.
-/

namespace ZQuant

/-- Modelled from the spec: scalar sentinels from `common/types.h`
(that header is not among the sources). Price is a signed integer
with a minimum sentinel; Qty and Priority are unsigned with a
maximum sentinel; OrderId and TickerId likewise. -/
def Price_INVALID : Int := -(2^63)

/-- Modelled from the spec: invalid quantity sentinel. -/
def Qty_INVALID : Nat := 2^64 - 1

/-- Modelled from the spec: invalid order-id sentinel. -/
def OrderId_INVALID : Nat := 2^64 - 1

/-- Modelled from the spec: invalid priority sentinel. -/
def Priority_INVALID : Nat := 2^64 - 1

/-- Modelled from the spec: invalid ticker-id sentinel. -/
def TickerId_INVALID : Nat := 2^32 - 1

/-- Order side as in `common/types.h` (modelled from the spec:
Side ∈ \x7bBUY, SELL, INVALID\x7d with sideToValue BUY=+1, SELL=-1). -/
inductive Side where
  | BUY
  | SELL
  | INVALID
deriving DecidableEq, Repr

/-- Modelled from the spec: sideToValue, BUY=+1, SELL=-1. -/
def sideToValue : Side → Int
  | Side.BUY => 1
  | Side.SELL => -1
  | Side.INVALID => 0

/-! ## Lock-free SPSC ring queue (`common/lf_queue.h`)

The queue state is the triple of monotone indices plus the element
counter; `mask_ = capacity - 1` with capacity a power of two.  The
store itself is immaterial for the claims, which are about which slot
index each accessor hands out.  The C++ expression on line 24,
`(current_write + 1) & mask_ == current_read & mask_`, parses under
C++ precedence as `(current_write + 1) & (mask_ == current_read) & mask_`
(`==` binds tighter than `&`), and the embedding reproduces exactly
that parse. -/

structure LFQueue where
  capacity : Nat
  writeIdx : Nat
  readIdx : Nat
  numElements : Nat
deriving DecidableEq, Repr

namespace LFQueue

/-- `mask_` field: capacity − 1. -/
def mask (q : LFQueue) : Nat := q.capacity - 1

/-- `LFQueue::tryGetNextToWriteTo`, embedded with the C++ parse of
line 24: the guard value is `(writeIdx + 1) & (mask == readIdx) & mask`
where the comparison contributes 0 or 1.  Returns the slot index
`writeIdx & mask` when the guard is zero, `none` otherwise. -/
def tryGetNextToWriteTo (q : LFQueue) : Option Nat :=
  let cmp : Nat := if q.mask = q.readIdx then 1 else 0
  if Nat.land (Nat.land (q.writeIdx + 1) cmp) q.mask ≠ 0 then
    none
  else
    some (Nat.land q.writeIdx q.mask)

/-- `LFQueue::updateWriteIndex`: advance the write index and bump the
element counter. -/
def updateWriteIndex (q : LFQueue) : LFQueue :=
  { q with writeIdx := q.writeIdx + 1, numElements := q.numElements + 1 }

/-- `LFQueue::getNextToRead`: the slot index `readIdx & mask` when the
element counter is positive, `none` when the queue is empty. -/
def getNextToRead (q : LFQueue) : Option Nat :=
  if q.numElements > 0 then some (Nat.land q.readIdx q.mask) else none

/-- `LFQueue::updateReadIndex`: advance the read index and drop the
element counter. -/
def updateReadIndex (q : LFQueue) : LFQueue :=
  { q with readIdx := q.readIdx + 1, numElements := q.numElements - 1 }

/-- A producer step that only writes through slots handed out by
`tryGetNextToWriteTo`: reserve a slot, then commit. -/
def produceStep (q : LFQueue) : Option (Nat × LFQueue) :=
  match q.tryGetNextToWriteTo with
  | none => none
  | some slot => some (slot, q.updateWriteIndex)

/-- A fresh queue of the given (power of two) capacity. -/
def init (cap : Nat) : LFQueue :=
  { capacity := cap, writeIdx := 0, readIdx := 0, numElements := 0 }

/-- The fullness condition the source intends on line 24 (with the
parenthesization its spacing suggests): next write slot coincides with
the read slot. -/
def intendedFull (q : LFQueue) : Bool :=
  Nat.land (q.writeIdx + 1) q.mask = Nat.land q.readIdx q.mask

end LFQueue

/-! ## Message types (`exchange/order_server/client_response.h`,
`exchange/market_data/market_update.h`) -/

/-- Client response types (spec §6: ACCEPTED=1, CANCELED=2, FILLED=3,
CANCEL_REJECTED=4, INVALID=0). -/
inductive ClientResponseType where
  | INVALID
  | ACCEPTED
  | CANCELED
  | FILLED
  | CANCEL_REJECTED
deriving DecidableEq, Repr

/-- `MEClientResponse` record, fields in source order (spec §6):
type, client_id, ticker_id, client_order_id, market_order_id, side,
price, exec_qty, leaves_qty. -/
structure MEClientResponse where
  type : ClientResponseType
  client_id : Nat
  ticker_id : Nat
  client_order_id : Nat
  market_order_id : Nat
  side : Side
  price : Int
  exec_qty : Nat
  leaves_qty : Nat
deriving DecidableEq, Repr

/-- `MarketUpdateType` from `market_update.h`. -/
inductive MarketUpdateType where
  | INVALID
  | CLEAR
  | ADD
  | MODIFY
  | CANCEL
  | TRADE
  | SNAPSHOT_START
  | SNAPSHOT_END
deriving DecidableEq, Repr

/-- `MEMarketUpdate` record, fields in source order: type, order_id,
ticker_id, side, price, qty, priority. -/
structure MEMarketUpdate where
  type : MarketUpdateType
  order_id : Nat
  ticker_id : Nat
  side : Side
  price : Int
  qty : Nat
  priority : Nat
deriving DecidableEq, Repr

/-- A default-initialized `MEMarketUpdate` (all fields at their
member initializers, the INVALID sentinels). -/
def MEMarketUpdate.mkDefault : MEMarketUpdate :=
  ⟨MarketUpdateType.INVALID, OrderId_INVALID, TickerId_INVALID, Side.INVALID,
   Price_INVALID, Qty_INVALID, Priority_INVALID⟩

/-- An emission of the matching engine: either a client response
(`sendClientResponse`) or a market update (`sendMarketUpdate`), in
emission order. -/
inductive Event where
  | response (r : MEClientResponse)
  | update (u : MEMarketUpdate)
deriving DecidableEq, Repr

/-! ## Matching-engine order book
(`exchange/matcher/unordered_map_me_order_book.cpp`)

`MEOrder` and the price-level / book containers live in the book's
header, which is not among the sources; their shape is modelled from
the spec (§3): an `MEOrder` carries ticker, client_id,
client_order_id, market_order_id, side, price, remaining qty and
priority; a price level is a side, a price and a non-empty FIFO of
orders; each side of the book is the circular list of levels ordered
best-first, embedded as a plain list with the head pointer at the
head. -/

structure MEOrder where
  ticker_id : Nat
  client_id : Nat
  client_order_id : Nat
  market_order_id : Nat
  side : Side
  price : Int
  qty : Nat
  priority : Nat
deriving DecidableEq, Repr

/-- Modelled from the spec: `MEOrdersAtPrice` — side, price, pointer
to the first order of the level's FIFO. The FIFO is non-empty by
construction (a level is destroyed when its FIFO empties), so it is
embedded as a first order plus the rest. -/
structure MELevel where
  side : Side
  price : Int
  first : MEOrder
  rest : List MEOrder
deriving DecidableEq, Repr

/-- All orders of a level, FIFO order. -/
def MELevel.orders (lvl : MELevel) : List MEOrder := lvl.first :: lvl.rest

/-- Total number of orders across a list of levels (termination
measure for the matching loop). -/
def ordersCount : List MELevel → Nat
  | [] => 0
  | lvl :: ls => lvl.rest.length + 1 + ordersCount ls

/-- Modelled from the spec: the per-ticker book (§3) — best-first
bid and ask level lists, a per-price priority counter, and the
monotonic market-order-id counter (the per-client order map is
derived from the live orders, see `cidOidLookup`). -/
structure MEBook where
  ticker_id : Nat
  bids : List MELevel
  asks : List MELevel
  priorityCounters : List (Int × Nat)
  nextMarketOrderId : Nat
deriving DecidableEq, Repr

/-- `UnorderedMapMEOrderBook::match` (lines 21-59): fill the passive
order against the aggressor, emit aggressor FILLED, passive FILLED,
TRADE, then CANCEL (full fill, passive removed — signalled by
returning `none`) or MODIFY (partial fill, updated passive returned).
Returns (events, new leaves_qty, surviving passive order). -/
def matchStep (ticker client : Nat) (side : Side) (coid moid : Nat)
    (order : MEOrder) (leaves : Nat) : List Event × Nat × Option MEOrder :=
  let fill := min leaves order.qty
  let leaves' := leaves - fill
  let q' := order.qty - fill
  let evs : List Event :=
    [Event.response ⟨ClientResponseType.FILLED, client, ticker, coid, moid,
       side, order.price, fill, leaves'⟩,
     Event.response ⟨ClientResponseType.FILLED, order.client_id, ticker,
       order.client_order_id, order.market_order_id, order.side, order.price,
       fill, q'⟩,
     Event.update ⟨MarketUpdateType.TRADE, OrderId_INVALID, ticker, side,
       order.price, fill, Priority_INVALID⟩]
  if q' = 0 then
    (evs ++ [Event.update ⟨MarketUpdateType.CANCEL, order.market_order_id,
       ticker, order.side, order.price, order.qty, Priority_INVALID⟩],
     leaves', none)
  else
    (evs ++ [Event.update ⟨MarketUpdateType.MODIFY, order.market_order_id,
       ticker, order.side, order.price, q', order.priority⟩],
     leaves', some { order with qty := q' })

/-- The BUY branch of `UnorderedMapMEOrderBook::checkForMatch`
(lines 65-77): while leaves_qty and the ask side are non-zero, break
if `price < ask_itr->price_`, else run `match` on the head order of
the best level. A fully filled passive order is removed (the level
with it when its FIFO empties); after a partial fill the new
leaves_qty is zero, so the loop's next guard test exits — embedded as
a direct return. -/
def matchAsksLoop (ticker client coid moid : Nat) (price : Int) :
    Nat → List MELevel → List Event × List MELevel × Nat
  | leaves, [] => ([], [], leaves)
  | 0, asks => ([], asks, 0)
  | l + 1, ⟨lside, lp, lf, lrest⟩ :: restLvls =>
    if price < lf.price then ([], ⟨lside, lp, lf, lrest⟩ :: restLvls, l + 1)
    else
      let s := matchStep ticker client Side.BUY coid moid lf (l + 1)
      match s.2.2, lrest with
      | some ord', rest' => (s.1, ⟨lside, lp, ord', rest'⟩ :: restLvls, s.2.1)
      | none, [] =>
        let r := matchAsksLoop ticker client coid moid price s.2.1 restLvls
        (s.1 ++ r.1, r.2)
      | none, o :: os =>
        let r := matchAsksLoop ticker client coid moid price s.2.1
          (⟨lside, lp, o, os⟩ :: restLvls)
        (s.1 ++ r.1, r.2)
termination_by l asks => ordersCount asks
decreasing_by
  all_goals simp [ordersCount]

/-- The SELL branch of `UnorderedMapMEOrderBook::checkForMatch`
(lines 78-90): same loop against the bids, breaking if
`price > bid_itr->price_`. -/
def matchBidsLoop (ticker client coid moid : Nat) (price : Int) :
    Nat → List MELevel → List Event × List MELevel × Nat
  | leaves, [] => ([], [], leaves)
  | 0, bids => ([], bids, 0)
  | l + 1, ⟨lside, lp, lf, lrest⟩ :: restLvls =>
    if price > lf.price then ([], ⟨lside, lp, lf, lrest⟩ :: restLvls, l + 1)
    else
      let s := matchStep ticker client Side.SELL coid moid lf (l + 1)
      match s.2.2, lrest with
      | some ord', rest' => (s.1, ⟨lside, lp, ord', rest'⟩ :: restLvls, s.2.1)
      | none, [] =>
        let r := matchBidsLoop ticker client coid moid price s.2.1 restLvls
        (s.1 ++ r.1, r.2)
      | none, o :: os =>
        let r := matchBidsLoop ticker client coid moid price s.2.1
          (⟨lside, lp, o, os⟩ :: restLvls)
        (s.1 ++ r.1, r.2)
termination_by l bids => ordersCount bids
decreasing_by
  all_goals simp [ordersCount]

/-- `UnorderedMapMEOrderBook::checkForMatch` (lines 62-93):
initialize leaves_qty to qty, run the side's matching loop, return
the remaining leaves_qty together with the events and updated book. -/
def checkForMatch (book : MEBook) (client coid ticker : Nat) (side : Side)
    (price : Int) (qty moid : Nat) : List Event × MEBook × Nat :=
  match side with
  | Side.BUY =>
    let r := matchAsksLoop ticker client coid moid price qty book.asks
    (r.1, { book with asks := r.2.1 }, r.2.2)
  | Side.SELL =>
    let r := matchBidsLoop ticker client coid moid price qty book.bids
    (r.1, { book with bids := r.2.1 }, r.2.2)
  | Side.INVALID => ([], book, qty)

/-- Modelled from the spec: bound `ME_MAX_NUM_CLIENTS` on client ids
(`cid_oid_to_order_.size()`). -/
def ME_MAX_NUM_CLIENTS : Nat := 256

/-- Modelled from the spec: `getNextPriority` mints the next value of
the per-price priority counter ("a priority counter per price used to
mint ascending priorities", §3); the counter starts at zero for an
untouched price. -/
def getNextPriority (book : MEBook) (price : Int) : Nat :=
  ((book.priorityCounters.lookup price).getD 0) + 1

/-- Modelled from the spec: record the freshly minted priority in the
per-price counter. -/
def bumpPriority (book : MEBook) (price : Int) : MEBook :=
  { book with priorityCounters :=
      (price, getNextPriority book price) ::
        book.priorityCounters.eraseP (fun p => p.1 == price) }

/-- Modelled from the spec: insert an order at the FIFO tail of its
price level, creating the level and splicing it at the correct rank
(best first, per `better`) when absent (§4.2 step 4). -/
def addToLevels (better : Int → Int → Bool) (order : MEOrder) :
    List MELevel → List MELevel
  | [] => [⟨order.side, order.price, order, []⟩]
  | lvl :: rest =>
    if lvl.price = order.price then
      ⟨lvl.side, lvl.price, lvl.first, lvl.rest ++ [order]⟩ :: rest
    else if better order.price lvl.price then
      ⟨order.side, order.price, order, []⟩ :: lvl :: rest
    else
      lvl :: addToLevels better order rest

/-- Modelled from the spec: `addOrder` — insert into the side the
order belongs to (bids ranked by descending price, asks by ascending
price). -/
def meAddOrder (book : MEBook) (order : MEOrder) : MEBook :=
  match order.side with
  | Side.BUY => { book with bids := addToLevels (fun a b => b < a) order book.bids }
  | Side.SELL => { book with asks := addToLevels (fun a b => a < b) order book.asks }
  | Side.INVALID => book

/-- First live order matching the predicate, scanning levels in list
order and each FIFO front to back. -/
def levelsFind (p : MEOrder → Bool) : List MELevel → Option MEOrder
  | [] => none
  | lvl :: rest =>
    match lvl.orders.find? p with
    | some o => some o
    | none => levelsFind p rest

/-- Modelled from the spec: the per-client map
`cid_oid_to_order_[client_id][order_id]` — it maps a client's live
client_order_id to its ExchangeOrder and holds null otherwise (§3),
so under the book's invariants it is the search for the live order
with that client identity; null when client_id is out of range. -/
def cidOidLookup (book : MEBook) (client oid : Nat) : Option MEOrder :=
  if client < ME_MAX_NUM_CLIENTS then
    let p := fun (o : MEOrder) => o.client_id == client && o.client_order_id == oid
    match levelsFind p book.bids with
    | some o => some o
    | none => levelsFind p book.asks
  else none

/-- Modelled from the spec: remove the order with the given
market_order_id from a side's levels — out of its FIFO, removing the
price level when the FIFO empties (§4.2 cancel step 2). -/
def removeFromLevels (moid : Nat) : List MELevel → List MELevel
  | [] => []
  | lvl :: rest =>
    if lvl.orders.any (fun o => o.market_order_id == moid) then
      match lvl.orders.filter (fun o => o.market_order_id != moid) with
      | [] => rest
      | o :: os => ⟨lvl.side, lvl.price, o, os⟩ :: rest
    else lvl :: removeFromLevels moid rest

/-- Modelled from the spec: `removeOrder` dispatched on the order's
side. -/
def meRemoveOrder (book : MEBook) (order : MEOrder) : MEBook :=
  match order.side with
  | Side.BUY => { book with bids := removeFromLevels order.market_order_id book.bids }
  | Side.SELL => { book with asks := removeFromLevels order.market_order_id book.asks }
  | Side.INVALID => book

/-- `UnorderedMapMEOrderBook::add` (lines 96-122): mint a
market_order_id (modelled from the spec as the book's monotonic
counter), emit ACCEPTED, run `checkForMatch`, and if leaves_qty
remains, mint a priority, rest the remainder in the book and emit an
ADD market update. Returns (events in emission order, new book). -/
def addOp (book : MEBook) (client coid ticker : Nat) (side : Side)
    (price : Int) (qty : Nat) : List Event × MEBook :=
  let moid := book.nextMarketOrderId
  let book0 := { book with nextMarketOrderId := moid + 1 }
  let accepted := Event.response ⟨ClientResponseType.ACCEPTED, client, ticker,
    coid, moid, side, price, 0, qty⟩
  let r := checkForMatch book0 client coid ticker side price qty moid
  if r.2.2 ≠ 0 then
    let priority := getNextPriority r.2.1 price
    let book1 := bumpPriority r.2.1 price
    let order : MEOrder := ⟨ticker, client, coid, moid, side, price, r.2.2, priority⟩
    (accepted :: r.1 ++ [Event.update ⟨MarketUpdateType.ADD, moid, ticker, side,
       price, r.2.2, priority⟩],
     meAddOrder book1 order)
  else
    (accepted :: r.1, r.2.1)

/-- `UnorderedMapMEOrderBook::cancel` (lines 125-154): look the order
up through the per-client map; on failure emit only CANCEL_REJECTED;
on success remove the order, emit the CANCEL market update (qty 0,
the order's priority) and then the CANCELED client response
(exec_qty INVALID, leaves_qty = the order's remaining qty). -/
def cancelOp (book : MEBook) (client oid ticker : Nat) : List Event × MEBook :=
  match cidOidLookup book client oid with
  | none =>
    ([Event.response ⟨ClientResponseType.CANCEL_REJECTED, client, ticker, oid,
       OrderId_INVALID, Side.INVALID, Price_INVALID, Qty_INVALID, Qty_INVALID⟩],
     book)
  | some ord =>
    ([Event.update ⟨MarketUpdateType.CANCEL, ord.market_order_id, ticker,
       ord.side, ord.price, 0, ord.priority⟩,
      Event.response ⟨ClientResponseType.CANCELED, client, ticker, oid,
       ord.market_order_id, ord.side, ord.price, Qty_INVALID, ord.qty⟩],
     meRemoveOrder book ord)

/-! ### Spec-side matching (for claim C1)

The following definitions transcribe the CLAIM's wording, to be
compared with the source embedding above: while leaves_qty > 0 and
the opposite side is non-empty and the price crosses (BUY: price ≥
best ask price; SELL: price ≤ best bid price), the first order of the
best opposite level is filled by min(leaves_qty, passive.qty) and
both quantities are decremented. -/

/-- The claim's crossing test against the best opposite price. -/
def specCrosses (side : Side) (price bestOppPrice : Int) : Bool :=
  match side with
  | Side.BUY => decide (bestOppPrice ≤ price)
  | Side.SELL => decide (price ≤ bestOppPrice)
  | Side.INVALID => false

/-- One recorded fill: the passive order as it stood and the traded
quantity. -/
structure SpecFill where
  passive : MEOrder
  fillQty : Nat
deriving DecidableEq, Repr

/-- Drop the first order of the head level, dropping the level when
its FIFO empties. -/
def levelDropFirst (lvl : MELevel) (rest : List MELevel) : List MELevel :=
  match lvl.rest with
  | [] => rest
  | o :: os => ⟨lvl.side, lvl.price, o, os⟩ :: rest

/-- The claim's matching loop: fills in execution order, the
final opposite side and the final leaves_qty. -/
def specMatchLoop (side : Side) (price : Int) :
    Nat → List MELevel → List SpecFill × List MELevel × Nat
  | 0, opp => ([], opp, 0)
  | l + 1, [] => ([], [], l + 1)
  | l + 1, lvl :: rest =>
    if specCrosses side price lvl.price then
      let fq := min (l + 1) lvl.first.qty
      let leaves' := l + 1 - fq
      if hq : lvl.first.qty - fq = 0 then
        match hrest : lvl.rest with
        | [] =>
          let r := specMatchLoop side price leaves' rest
          (⟨lvl.first, fq⟩ :: r.1, r.2)
        | o :: os =>
          let r := specMatchLoop side price leaves' (⟨lvl.side, lvl.price, o, os⟩ :: rest)
          (⟨lvl.first, fq⟩ :: r.1, r.2)
      else
        let r := specMatchLoop side price leaves'
          (⟨lvl.side, lvl.price, { lvl.first with qty := lvl.first.qty - fq }, lvl.rest⟩ :: rest)
        (⟨lvl.first, fq⟩ :: r.1, r.2)
    else ([], lvl :: rest, l + 1)
termination_by l opp => ordersCount opp + l
decreasing_by
  all_goals simp_all [ordersCount]
  all_goals omega

/-- No crossable level remains: the opposite side is empty or its
best level's price no longer crosses. -/
def noCrossable (side : Side) (price : Int) : List MELevel → Bool
  | [] => true
  | lvl :: _ => !(specCrosses side price lvl.price)

/-- Well-formedness of a side's levels, as the book invariants give
it: every order of a level carries the level's price and side. -/
def LevelWF (lvl : MELevel) : Prop :=
  ∀ o ∈ lvl.orders, o.price = lvl.price ∧ o.side = lvl.side

/-- All levels of a list are well-formed. -/
def LevelsWF (ls : List MELevel) : Prop := ∀ lvl ∈ ls, LevelWF lvl

instance (lvl : MELevel) : Decidable (LevelWF lvl) := by
  unfold LevelWF; infer_instance

instance (ls : List MELevel) : Decidable (LevelsWF ls) := by
  unfold LevelsWF; infer_instance

/-! ### Fill-block shape (for claim C3) -/

/-- The claim's per-fill event block shape: the aggressor's FILLED
response, then the passive order's FILLED response, then the TRADE
market update, then — when the passive order was fully filled — its
CANCEL market update, otherwise a MODIFY market update carrying its
remaining qty. -/
inductive FillSeq (ticker client coid moid : Nat) : List Event → Prop
  | nil : FillSeq ticker client coid moid []
  | cons (aggr pass : MEClientResponse) (trade tailU : MEMarketUpdate)
      (rest : List Event)
      (haggr : aggr.type = ClientResponseType.FILLED ∧
        aggr.client_id = client ∧ aggr.ticker_id = ticker ∧
        aggr.client_order_id = coid ∧ aggr.market_order_id = moid)
      (hpass : pass.type = ClientResponseType.FILLED ∧
        pass.ticker_id = ticker)
      (htrade : trade.type = MarketUpdateType.TRADE ∧
        trade.qty = pass.exec_qty ∧ trade.price = pass.price)
      (htail : tailU.order_id = pass.market_order_id ∧
        (pass.leaves_qty = 0 → tailU.type = MarketUpdateType.CANCEL) ∧
        (pass.leaves_qty ≠ 0 → tailU.type = MarketUpdateType.MODIFY ∧
          tailU.qty = pass.leaves_qty))
      (hrest : FillSeq ticker client coid moid rest) :
      FillSeq ticker client coid moid
        (Event.response aggr :: Event.response pass :: Event.update trade ::
          Event.update tailU :: rest)

/-! ## Snapshot synthesizer
(`exchange/market_data/snapshot_synthesizer.cpp`) -/

/-- `MDPMarketUpdate`: a sequence number and the wrapped update. -/
structure MDPMarketUpdate where
  seq_num : Nat
  me_market_update : MEMarketUpdate
deriving DecidableEq, Repr

/-- The synthesizer's state: the shadow book `ticker_orders_`
(per ticker, per order id, the stored `MEMarketUpdate` copy) and the
last applied incremental sequence number. `numTickers` and
`maxOrderIds` are `ME_MAX_TICKERS` / `ME_MAX_ORDER_IDS`. -/
structure SnapshotSynthesizer where
  numTickers : Nat
  maxOrderIds : Nat
  orders : Nat → Nat → Option MEMarketUpdate
  lastIncSeqNum : Nat

/-- `SnapshotSynthesizer::addToSnapshot` (lines 31-81): apply an ADD
(asserting the slot is empty), MODIFY / CANCEL (asserting the stored
order exists with matching id and side), ignore the other types, then
assert the sequence number is the successor of the last one. An
assertion failure is fatal in the source and embeds as `none`. -/
def addToSnapshot (s : SnapshotSynthesizer) (m : MDPMarketUpdate) :
    Option SnapshotSynthesizer :=
  let u := m.me_market_update
  let orders' : Option (Nat → Nat → Option MEMarketUpdate) :=
    match u.type with
    | MarketUpdateType.ADD =>
      match s.orders u.ticker_id u.order_id with
      | some _ => none
      | none => some (fun tid oid =>
          if tid = u.ticker_id ∧ oid = u.order_id then some u
          else s.orders tid oid)
    | MarketUpdateType.MODIFY =>
      match s.orders u.ticker_id u.order_id with
      | none => none
      | some o =>
        if o.order_id = u.order_id ∧ o.side = u.side then
          some (fun tid oid =>
            if tid = u.ticker_id ∧ oid = u.order_id then
              some { o with qty := u.qty, price := u.price }
            else s.orders tid oid)
        else none
    | MarketUpdateType.CANCEL =>
      match s.orders u.ticker_id u.order_id with
      | none => none
      | some o =>
        if o.order_id = u.order_id ∧ o.side = u.side then
          some (fun tid oid =>
            if tid = u.ticker_id ∧ oid = u.order_id then none
            else s.orders tid oid)
        else none
    | _ => some s.orders
  match orders' with
  | none => none
  | some f =>
    if m.seq_num = s.lastIncSeqNum + 1 then
      some { s with orders := f, lastIncSeqNum := m.seq_num }
    else none

/-- The SNAPSHOT_START record: the order_id field carries the anchor
incremental sequence number, the rest stays default-initialized. -/
def snapshotStartRec (s : SnapshotSynthesizer) : MEMarketUpdate :=
  { MEMarketUpdate.mkDefault with
    type := MarketUpdateType.SNAPSHOT_START
    order_id := s.lastIncSeqNum }

/-- The SNAPSHOT_END record, same anchor. -/
def snapshotEndRec (s : SnapshotSynthesizer) : MEMarketUpdate :=
  { MEMarketUpdate.mkDefault with
    type := MarketUpdateType.SNAPSHOT_END
    order_id := s.lastIncSeqNum }

/-- The per-ticker CLEAR record: only type and ticker_id are set. -/
def clearRec (tid : Nat) : MEMarketUpdate :=
  { MEMarketUpdate.mkDefault with
    type := MarketUpdateType.CLEAR
    ticker_id := tid }

/-- The stored records of one ticker's shadow book, in ascending
order-id order (the iteration order of the per-ticker array). -/
def tickerLiveRecords (s : SnapshotSynthesizer) (tid : Nat) :
    List MEMarketUpdate :=
  (List.range s.maxOrderIds).filterMap (s.orders tid)

/-- Emit one record: stamp it with the running `snapshot_size`
counter and advance the counter. -/
def emitRecord (st : List MDPMarketUpdate × Nat) (u : MEMarketUpdate) :
    List MDPMarketUpdate × Nat :=
  (st.1 ++ [⟨st.2, u⟩], st.2 + 1)

/-- `SnapshotSynthesizer::publishSnapshot` (lines 84-123):
SNAPSHOT_START, then per ticker in ascending id a CLEAR record
followed by the stored record of every live order, then SNAPSHOT_END,
all stamped with the `snapshot_size` counter starting at 0. -/
def publishSnapshot (s : SnapshotSynthesizer) : List MDPMarketUpdate :=
  let st0 := emitRecord ([], 0) (snapshotStartRec s)
  let st1 := (List.range s.numTickers).foldl
    (fun st tid => (tickerLiveRecords s tid).foldl emitRecord
      (emitRecord st (clearRec tid))) st0
  (emitRecord st1 (snapshotEndRec s)).1

/-- The claim's cycle shape, written from its words: a
SNAPSHOT_START record carrying the anchor, then for each ticker in
ascending id one CLEAR record followed by one record per live order
of that ticker's shadow, then a SNAPSHOT_END record carrying the same
anchor. -/
def specSnapshotRecords (s : SnapshotSynthesizer) : List MEMarketUpdate :=
  snapshotStartRec s ::
    ((List.range s.numTickers).flatMap
      (fun tid => clearRec tid :: tickerLiveRecords s tid) ++
     [snapshotEndRec s])

/-- Stamp a record list with consecutive sequence numbers starting
at `n`. -/
def numberFrom (n : Nat) : List MEMarketUpdate → List MDPMarketUpdate
  | [] => []
  | r :: rs => ⟨n, r⟩ :: numberFrom (n + 1) rs

/-! ## Client-side market order book
(`trading/strategy/market_order_book.h` / `.cpp`)

Price levels live in the `MemPool<MarketOrdersAtPrice>`; the pool is
embedded as an arena: `levelStore` is the backing memory (it persists
after deallocation, as real memory does — allocation hands out fresh
ids, the benign-recycling case), `aliveLevels` is the set of
currently allocated level ids. The circular doubly-linked best-first
list of each side (headed by `bids_by_price_` / `asks_by_price_`)
is embedded as the list of level ids in link order; the level's
intra-FIFO circular list as the list of order ids. `priceIdx` is
`price_orders_at_price_` (price-index → non-null level pointer;
an absent key is a null entry), `orders` is `oid_to_order_`
restricted to its non-null entries. -/

/-- `MarketOrder`: order_id, side, price, qty, priority. -/
structure MarketOrder where
  order_id : Nat
  side : Side
  price : Int
  qty : Nat
  priority : Nat
deriving DecidableEq, Repr

/-- `MarketOrdersAtPrice` payload: side, price, and the FIFO of
order ids (`first_mkt_order_` and the intra-level links). -/
structure MktLevelData where
  side : Side
  price : Int
  fifo : List Nat
deriving DecidableEq, Repr

/-- The cached `BBO` struct. -/
structure BBO where
  bid_price : Int
  ask_price : Int
  bid_qty : Nat
  ask_qty : Nat
deriving DecidableEq, Repr

/-- BBO member initializers: the INVALID sentinels. -/
def BBO.init : BBO := ⟨Price_INVALID, Price_INVALID, Qty_INVALID, Qty_INVALID⟩

/-- Modelled from the spec: the `ME_MAX_PRICE_LEVELS` bound
(`common/types.h` is not among the sources). -/
def ME_MAX_PRICE_LEVELS : Nat := 256

/-- `MarketOrderBook::priceToIndex`: `price % ME_MAX_PRICE_LEVELS`
(prices are non-negative in operation, so C++ `%` agrees with
`Int.emod`). -/
def priceToIndex (price : Int) : Nat :=
  (price % (ME_MAX_PRICE_LEVELS : Int)).toNat

/-- The client-side book state. -/
structure MarketOrderBook where
  levelStore : List (Nat × MktLevelData)
  aliveLevels : List Nat
  bids : List Nat
  asks : List Nat
  priceIdx : List (Nat × Nat)
  orders : List (Nat × MarketOrder)
  nextLevelId : Nat
  bbo : BBO
deriving DecidableEq, Repr

/-- The empty book (all pointers null, BBO at its initializers). -/
def MarketOrderBook.empty : MarketOrderBook :=
  ⟨[], [], [], [], [], [], 0, BBO.init⟩

/-- Write an association, replacing any previous binding. -/
def assocSet {α : Type} [BEq α] {β : Type} (m : List (α × β)) (k : α) (v : β) :
    List (α × β) :=
  (k, v) :: m.eraseP (fun p => p.1 == k)

/-- Erase an association. -/
def assocErase {α : Type} [BEq α] {β : Type} (m : List (α × β)) (k : α) :
    List (α × β) :=
  m.eraseP (fun p => p.1 == k)

namespace MarketOrderBook

/-- Dereference a level id in the arena (a dangling id still reads
the persisted memory, with a default for never-allocated ids). -/
def levelData (b : MarketOrderBook) (lid : Nat) : MktLevelData :=
  (b.levelStore.lookup lid).getD ⟨Side.INVALID, Price_INVALID, []⟩

/-- `MarketOrderBook::getOrdersAtPrice`: the stored level pointer for
the price's index — `none` is a null entry, and the returned id may
be dangling (that is the pointer the source returns). -/
def getOrdersAtPrice (b : MarketOrderBook) (price : Int) : Option Nat :=
  b.priceIdx.lookup (priceToIndex price)

/-- Aggregate qty at a level: the FIFO walk of `updateBBO`, summing
the qty of each resolved order. -/
def levelQtySum (b : MarketOrderBook) (lid : Nat) : Nat :=
  (((b.levelData lid).fifo.filterMap (fun oid => b.orders.lookup oid)).map
    (fun o => o.qty)).sum

/-- Rank used when splicing a new level into a side's best-first
list (`addOrdersAtPrice`'s walk): bids descend, asks ascend. -/
def levelBetter (side : Side) (p q : Int) : Bool :=
  match side with
  | Side.BUY => decide (q < p)
  | Side.SELL => decide (p < q)
  | Side.INVALID => false

/-- Splice a new level id into a side's list at its rank
(`MarketOrderBook::addOrdersAtPrice`, lines 115-165: the walk over
the circular list that ends inserting before the first worse level,
updating the head when the new level is best). -/
def spliceLevel (b : MarketOrderBook) (d : MktLevelData) (nid : Nat) :
    List Nat → List Nat
  | [] => [nid]
  | i :: is =>
    if levelBetter d.side d.price (b.levelData i).price then nid :: i :: is
    else i :: spliceLevel b d nid is

/-- `MarketOrderBook::addOrdersAtPrice`: record the level in
`price_orders_at_price_` and link it into its side's list. -/
def addOrdersAtPrice (b : MarketOrderBook) (nid : Nat) (d : MktLevelData) :
    MarketOrderBook :=
  let b := { b with priceIdx := assocSet b.priceIdx (priceToIndex d.price) nid }
  match d.side with
  | Side.BUY => { b with bids := spliceLevel b d nid b.bids }
  | Side.SELL => { b with asks := spliceLevel b d nid b.asks }
  | Side.INVALID => b

/-- `MarketOrderBook::removeOrdersAtPrice` (lines 168-190): unlink
the level from its side's list (nulling the head if it was the only
level), null the `price_orders_at_price_` entry, deallocate. -/
def removeOrdersAtPrice (b : MarketOrderBook) (side : Side) (price : Int) :
    MarketOrderBook :=
  match b.getOrdersAtPrice price with
  | none => b
  | some lid =>
    let b := match side with
      | Side.BUY => { b with bids := b.bids.erase lid }
      | Side.SELL => { b with asks := b.asks.erase lid }
      | Side.INVALID => b
    { b with
      priceIdx := assocErase b.priceIdx (priceToIndex price)
      aliveLevels := b.aliveLevels.erase lid }

/-- `MarketOrderBook::removeOrder` (lines 193-215): drop the order
from its level's FIFO — removing the whole level when the order was
alone — then null its `oid_to_order_` entry and deallocate. -/
def removeOrder (b : MarketOrderBook) (ord : MarketOrder) : MarketOrderBook :=
  let b' :=
    match b.getOrdersAtPrice ord.price with
    | none => b
    | some lid =>
      let d := b.levelData lid
      if d.fifo = [ord.order_id] then
        b.removeOrdersAtPrice ord.side ord.price
      else
        let ls := assocSet b.levelStore lid { d with fifo := d.fifo.erase ord.order_id }
        { b with levelStore := ls }
  { b' with orders := assocErase b'.orders ord.order_id }

/-- `MarketOrderBook::addOrder` (lines 218-238): if
`getOrdersAtPrice` yields a null pointer, allocate a fresh level
holding the order and splice it in; otherwise append the order at that
level's FIFO tail — the source follows the stored pointer whether or
not it is still allocated. Finally record the order in
`oid_to_order_`. -/
def addOrder (b : MarketOrderBook) (ord : MarketOrder) : MarketOrderBook :=
  let b' :=
    match b.getOrdersAtPrice ord.price with
    | none =>
      let nid := b.nextLevelId
      let d : MktLevelData := ⟨ord.side, ord.price, [ord.order_id]⟩
      let b1 := { b with
        levelStore := assocSet b.levelStore nid d
        aliveLevels := nid :: b.aliveLevels
        nextLevelId := nid + 1 }
      b1.addOrdersAtPrice nid d
    | some lid =>
      let d := b.levelData lid
      let ls := assocSet b.levelStore lid { d with fifo := d.fifo ++ [ord.order_id] }
      { b with levelStore := ls }
  { b' with orders := assocSet b'.orders ord.order_id ord }

/-- `MarketOrderBook::updateBBO` (header lines 28-56): per flag,
recompute the side's best price and the qty sum over the best level's
FIFO, or store the INVALID sentinels when the side is empty. -/
def updateBBO (b : MarketOrderBook) (update_bid update_ask : Bool) :
    MarketOrderBook :=
  let bbo1 :=
    if update_bid then
      match b.bids with
      | [] => { b.bbo with bid_price := Price_INVALID, bid_qty := Qty_INVALID }
      | lid :: _ =>
        { b.bbo with
          bid_price := (b.levelData lid).price
          bid_qty := b.levelQtySum lid }
    else b.bbo
  let bbo2 :=
    if update_ask then
      match b.asks with
      | [] => { bbo1 with ask_price := Price_INVALID, ask_qty := Qty_INVALID }
      | lid :: _ =>
        { bbo1 with
          ask_price := (b.levelData lid).price
          ask_qty := b.levelQtySum lid }
    else bbo1
  { b with bbo := bbo2 }

/-- The source's `bid_updated` flag (`market_order_book.cpp` line
22), computed BEFORE the update is applied: the bid side is non-empty
and the update touches the BUY side at a price at least the current
best bid. -/
def bidUpdatedCond (b : MarketOrderBook) (u : MEMarketUpdate) : Bool :=
  match b.bids with
  | [] => false
  | lid :: _ => u.side == Side.BUY && decide ((b.levelData lid).price ≤ u.price)

/-- The source's `ask_updated` flag (line 23). -/
def askUpdatedCond (b : MarketOrderBook) (u : MEMarketUpdate) : Bool :=
  match b.asks with
  | [] => false
  | lid :: _ => u.side == Side.SELL && decide (u.price ≤ (b.levelData lid).price)

/-- `MarketOrderBook::onMarketUpdate` (lines 20-99): compute the two
update flags, apply the update by type — TRADE returns early and
touches nothing; CLEAR deallocates every order, nulls `oid_to_order_`,
deallocates the levels linked from the two side heads and nulls the
heads, leaving `price_orders_at_price_` untouched — then refresh the
BBO per the flags. -/
def onMarketUpdate (b : MarketOrderBook) (u : MEMarketUpdate) :
    MarketOrderBook :=
  let bid_updated := b.bidUpdatedCond u
  let ask_updated := b.askUpdatedCond u
  match u.type with
  | MarketUpdateType.TRADE => b
  | t =>
    let b1 :=
      match t with
      | MarketUpdateType.ADD =>
        b.addOrder ⟨u.order_id, u.side, u.price, u.qty, u.priority⟩
      | MarketUpdateType.MODIFY =>
        match b.orders.lookup u.order_id with
        | some o =>
          { b with orders := assocSet b.orders u.order_id { o with qty := u.qty } }
        | none => b
      | MarketUpdateType.CANCEL =>
        match b.orders.lookup u.order_id with
        | some o => b.removeOrder o
        | none => b
      | MarketUpdateType.CLEAR =>
        { b with
          orders := []
          aliveLevels := b.aliveLevels.filter
            (fun i => !(b.bids.contains i || b.asks.contains i))
          bids := []
          asks := [] }
      | _ => b
    b1.updateBBO bid_updated ask_updated

/-- Bid-side cache consistency: the cached bid is the best resting
price and the qty sum at the best level, or the INVALID sentinels on
an empty side. -/
def bidSideConsistent (b : MarketOrderBook) : Bool :=
  match b.bids with
  | [] => b.bbo.bid_price == Price_INVALID && b.bbo.bid_qty == Qty_INVALID
  | lid :: _ =>
    b.bbo.bid_price == (b.levelData lid).price &&
    b.bbo.bid_qty == b.levelQtySum lid

/-- Ask-side cache consistency. -/
def askSideConsistent (b : MarketOrderBook) : Bool :=
  match b.asks with
  | [] => b.bbo.ask_price == Price_INVALID && b.bbo.ask_qty == Qty_INVALID
  | lid :: _ =>
    b.bbo.ask_price == (b.levelData lid).price &&
    b.bbo.ask_qty == b.levelQtySum lid

/-- The claim-C10 invariant: every non-null entry of the price→level
map points to a currently allocated level linked into one of the two
side lists. -/
def priceMapLinked (b : MarketOrderBook) : Bool :=
  b.priceIdx.all (fun p =>
    b.aliveLevels.contains p.2 && (b.bids.contains p.2 || b.asks.contains p.2))

end MarketOrderBook

/-! ## Order manager, pre-trade risk, market maker
(`trading/strategy/order_manager.h` / `.cpp`, `risk_manager.h`,
`market_maker.h`, `om_order.h`) -/

/-- `OMOrderState` from `om_order.h`. -/
inductive OMOrderState where
  | INVALID
  | PENDING_NEW
  | LIVE
  | PENDING_CANCEL
  | DEAD
deriving DecidableEq, Repr

/-- `OMOrder` from `om_order.h`: ticker, order id, side, price, qty,
lifecycle state. -/
structure OMOrder where
  ticker_id : Nat
  order_id : Nat
  side : Side
  price : Int
  qty : Nat
  order_state : OMOrderState
deriving DecidableEq, Repr

/-- Client request types (spec §6: NEW=1, CANCEL=2). -/
inductive ClientRequestType where
  | INVALID
  | NEW
  | CANCEL
deriving DecidableEq, Repr

/-- `MEClientRequest` record (spec §6): type, client_id, ticker_id,
order_id, side, price, qty. -/
structure MEClientRequest where
  type : ClientRequestType
  client_id : Nat
  ticker_id : Nat
  order_id : Nat
  side : Side
  price : Int
  qty : Nat
deriving DecidableEq, Repr

/-- `RiskCheckResult` from `risk_manager.h`. -/
inductive RiskCheckResult where
  | INVALID
  | ORDER_TOO_LARGE
  | POSITION_TOO_LARGE
  | LOSS_TOO_LARGE
  | ALLOWED
deriving DecidableEq, Repr

/-- Modelled from the spec: `RiskCfg` (in `common/types.h`, not among
the sources) — the configured maxima consumed by
`RiskInfo::checkPreTradeRisk`. Total PnL and max_loss are real-valued
in the source (doubles); they are embedded over ℚ, exact for every
input considered here. -/
structure RiskCfg where
  max_order_size : Nat
  max_position : Nat
  max_loss : ℚ
deriving DecidableEq, Repr

/-- `RiskInfo::checkPreTradeRisk` (`risk_manager.h` lines 48-60):
order-size check, then position check on
|position + sideToValue(side)·qty|, then loss check
`total_pnl_ < max_loss_`, else ALLOWED. -/
def checkPreTradeRisk (position : Int) (totalPnl : ℚ) (cfg : RiskCfg)
    (side : Side) (qty : Nat) : RiskCheckResult :=
  if qty > cfg.max_order_size then RiskCheckResult.ORDER_TOO_LARGE
  else if (position + sideToValue side * (qty : Int)).natAbs > cfg.max_position then
    RiskCheckResult.POSITION_TOO_LARGE
  else if totalPnl < cfg.max_loss then RiskCheckResult.LOSS_TOO_LARGE
  else RiskCheckResult.ALLOWED

/-- `OrderManager::newOrder` (`order_manager.cpp` lines 6-21): send a
NEW request with the next order id, overwrite the slot as
PENDING_NEW, advance the id counter. -/
def newOrder (clientId nextOrderId : Nat) (ticker : Nat) (price : Int)
    (side : Side) (qty : Nat) : MEClientRequest × OMOrder × Nat :=
  (⟨ClientRequestType.NEW, clientId, ticker, nextOrderId, side, price, qty⟩,
   ⟨ticker, nextOrderId, side, price, qty, OMOrderState.PENDING_NEW⟩,
   nextOrderId + 1)

/-- `OrderManager::cancelOrder` (lines 24-38): send a CANCEL request
carrying the slot's attributes, set the slot to PENDING_CANCEL. -/
def cancelOrder (clientId : Nat) (order : OMOrder) : MEClientRequest × OMOrder :=
  (⟨ClientRequestType.CANCEL, clientId, order.ticker_id, order.order_id,
     order.side, order.price, order.qty⟩,
   { order with order_state := OMOrderState.PENDING_CANCEL })

/-- `OrderManager::moveOrder` (`order_manager.h` lines 64-101):
dispatch on the slot state — LIVE cancels on a price change;
DEAD/INVALID with a valid price runs the risk check and sends a NEW
only on ALLOWED (otherwise only logs); pending states do nothing.
Returns the request sent (if any), the slot, and the next-order-id
counter. -/
def moveOrder (clientId nextOrderId : Nat) (position : Int) (totalPnl : ℚ)
    (cfg : RiskCfg) (order : OMOrder) (ticker : Nat) (price : Int)
    (side : Side) (qty : Nat) : Option MEClientRequest × OMOrder × Nat :=
  match order.order_state with
  | OMOrderState.LIVE =>
    if order.price ≠ price then
      let c := cancelOrder clientId order
      (some c.1, c.2, nextOrderId)
    else (none, order, nextOrderId)
  | OMOrderState.INVALID =>
    if price ≠ Price_INVALID then
      if checkPreTradeRisk position totalPnl cfg side qty = RiskCheckResult.ALLOWED then
        let n := newOrder clientId nextOrderId ticker price side qty
        (some n.1, n.2.1, n.2.2)
      else (none, order, nextOrderId)
    else (none, order, nextOrderId)
  | OMOrderState.DEAD =>
    if price ≠ Price_INVALID then
      if checkPreTradeRisk position totalPnl cfg side qty = RiskCheckResult.ALLOWED then
        let n := newOrder clientId nextOrderId ticker price side qty
        (some n.1, n.2.1, n.2.2)
      else (none, order, nextOrderId)
    else (none, order, nextOrderId)
  | OMOrderState.PENDING_NEW => (none, order, nextOrderId)
  | OMOrderState.PENDING_CANCEL => (none, order, nextOrderId)

/-- `MarketMaker::onOrderBookUpdate` quote computation
(`market_maker.h` lines 35-36): shade each side by one tick when its
gap to the fair price is below the threshold. The source computes
over doubles; the embedding uses ℚ, exact for the inputs considered
here. -/
def mmQuotePrices (bidPrice askPrice : Int) (fair threshold : ℚ) : Int × Int :=
  (bidPrice - (if fair - (bidPrice : ℚ) ≥ threshold then 0 else 1),
   askPrice + (if (askPrice : ℚ) - fair ≥ threshold then 0 else 1))

/-- `MarketMaker::onOrderBookUpdate` (lines 19-42): when both BBO
sides and the fair price are valid (the INVALID fair feature embeds
as `none`), compute the quote prices and call
`moveOrders(ticker, bid, ask, clip)` — returned as the argument
tuple; otherwise no call. -/
def mmOnOrderBookUpdate (ticker : Nat) (bbo : BBO) (fair : Option ℚ)
    (threshold : ℚ) (clip : Nat) : Option (Nat × Int × Int × Nat) :=
  match fair with
  | none => none
  | some f =>
    if bbo.bid_price ≠ Price_INVALID ∧ bbo.ask_price ≠ Price_INVALID then
      let q := mmQuotePrices bbo.bid_price bbo.ask_price f threshold
      some (ticker, q.1, q.2, clip)
    else none

/-! # Theorems -/

/-- C2. The claim fails on the code: `tryGetNextToWriteTo`'s guard,
parsed with C++ precedence, is `(w+1) & (mask == r) & mask`, not a
fullness test. On a capacity-4 queue a producer that only writes
through returned slots is handed slot 3 when the ring is full
(intended-full state w=3, r=0), and on the fifth reservation is
handed slot 0 — the very slot `getNextToRead` designates as the
oldest of 4 committed-but-unread elements, which the producer then
overwrites. -/
theorem c2_lfqueue_full_check_broken :
    LFQueue.produceStep (LFQueue.init 4) = some (0, ⟨4, 1, 0, 1⟩) ∧
    LFQueue.produceStep ⟨4, 1, 0, 1⟩ = some (1, ⟨4, 2, 0, 2⟩) ∧
    LFQueue.produceStep ⟨4, 2, 0, 2⟩ = some (2, ⟨4, 3, 0, 3⟩) ∧
    LFQueue.intendedFull ⟨4, 3, 0, 3⟩ = true ∧
    LFQueue.produceStep ⟨4, 3, 0, 3⟩ = some (3, ⟨4, 4, 0, 4⟩) ∧
    LFQueue.getNextToRead ⟨4, 4, 0, 4⟩ = some 0 ∧
    (⟨4, 4, 0, 4⟩ : LFQueue).numElements = 4 ∧
    LFQueue.tryGetNextToWriteTo ⟨4, 4, 0, 4⟩ = some 0 := by
  decide

/-- C7. `moveOrder` follows the policy table: LIVE with unchanged
price is a no-op; LIVE with a changed price sends CANCEL and moves
the slot to PENDING_CANCEL; DEAD/INVALID with the INVALID price is a
no-op; DEAD/INVALID with a valid price sends NEW (moving to
PENDING_NEW and advancing the id counter) exactly when the risk check
returns ALLOWED, and otherwise only logs; the two pending states are
no-ops. -/
theorem c7_moveOrder_policy (clientId nextOrderId : Nat) (position : Int)
    (totalPnl : ℚ) (cfg : RiskCfg) (order : OMOrder) (ticker : Nat)
    (price : Int) (side : Side) (qty : Nat) :
    (order.order_state = OMOrderState.LIVE → price = order.price →
      moveOrder clientId nextOrderId position totalPnl cfg order ticker price side qty =
        (none, order, nextOrderId)) ∧
    (order.order_state = OMOrderState.LIVE → price ≠ order.price →
      moveOrder clientId nextOrderId position totalPnl cfg order ticker price side qty =
        (some (cancelOrder clientId order).1,
         { order with order_state := OMOrderState.PENDING_CANCEL }, nextOrderId)) ∧
    ((order.order_state = OMOrderState.DEAD ∨ order.order_state = OMOrderState.INVALID) →
      price = Price_INVALID →
      moveOrder clientId nextOrderId position totalPnl cfg order ticker price side qty =
        (none, order, nextOrderId)) ∧
    ((order.order_state = OMOrderState.DEAD ∨ order.order_state = OMOrderState.INVALID) →
      price ≠ Price_INVALID →
      checkPreTradeRisk position totalPnl cfg side qty = RiskCheckResult.ALLOWED →
      moveOrder clientId nextOrderId position totalPnl cfg order ticker price side qty =
        (some ⟨ClientRequestType.NEW, clientId, ticker, nextOrderId, side, price, qty⟩,
         ⟨ticker, nextOrderId, side, price, qty, OMOrderState.PENDING_NEW⟩,
         nextOrderId + 1)) ∧
    ((order.order_state = OMOrderState.DEAD ∨ order.order_state = OMOrderState.INVALID) →
      price ≠ Price_INVALID →
      checkPreTradeRisk position totalPnl cfg side qty ≠ RiskCheckResult.ALLOWED →
      moveOrder clientId nextOrderId position totalPnl cfg order ticker price side qty =
        (none, order, nextOrderId)) ∧
    ((order.order_state = OMOrderState.PENDING_NEW ∨
      order.order_state = OMOrderState.PENDING_CANCEL) →
      moveOrder clientId nextOrderId position totalPnl cfg order ticker price side qty =
        (none, order, nextOrderId)) := by
  refine ⟨?_, ?_, ?_, ?_, ?_, ?_⟩ <;>
    rcases order with ⟨t, i, s, p, q, st⟩ <;> cases st <;>
    simp_all [moveOrder, cancelOrder, newOrder] <;>
    intros <;> try simp_all
  all_goals omega

/-- C7 witness: a LIVE slot asked to move to a different price sends
the cancel and goes PENDING_CANCEL. -/
theorem c7_moveOrder_policy_witness :
    moveOrder 1 5 0 0 ⟨10, 10, 0⟩ ⟨0, 3, Side.BUY, 99, 5, OMOrderState.LIVE⟩ 0 98
        Side.BUY 5 =
      (some ⟨ClientRequestType.CANCEL, 1, 0, 3, Side.BUY, 99, 5⟩,
       ⟨0, 3, Side.BUY, 99, 5, OMOrderState.PENDING_CANCEL⟩, 5) :=
  (c7_moveOrder_policy 1 5 0 0 ⟨10, 10, 0⟩ ⟨0, 3, Side.BUY, 99, 5, OMOrderState.LIVE⟩
    0 98 Side.BUY 5).2.1 rfl (by decide)

/-- C8. `checkPreTradeRisk` evaluates order-size, position, loss in
that order and returns the first failure, else ALLOWED; in
particular, with max_order_size = 100 a qty of 200 yields
ORDER_TOO_LARGE, and a `moveOrder` on a DEAD or INVALID slot with
that configuration sends no request. -/
theorem c8_checkPreTradeRisk (position : Int) (totalPnl : ℚ) (cfg : RiskCfg)
    (side : Side) (qty : Nat) :
    (qty > cfg.max_order_size →
      checkPreTradeRisk position totalPnl cfg side qty = RiskCheckResult.ORDER_TOO_LARGE) ∧
    (qty ≤ cfg.max_order_size →
      (position + sideToValue side * (qty : Int)).natAbs > cfg.max_position →
      checkPreTradeRisk position totalPnl cfg side qty = RiskCheckResult.POSITION_TOO_LARGE) ∧
    (qty ≤ cfg.max_order_size →
      (position + sideToValue side * (qty : Int)).natAbs ≤ cfg.max_position →
      totalPnl < cfg.max_loss →
      checkPreTradeRisk position totalPnl cfg side qty = RiskCheckResult.LOSS_TOO_LARGE) ∧
    (qty ≤ cfg.max_order_size →
      (position + sideToValue side * (qty : Int)).natAbs ≤ cfg.max_position →
      ¬totalPnl < cfg.max_loss →
      checkPreTradeRisk position totalPnl cfg side qty = RiskCheckResult.ALLOWED) ∧
    (cfg.max_order_size = 100 → qty = 200 →
      checkPreTradeRisk position totalPnl cfg side qty = RiskCheckResult.ORDER_TOO_LARGE ∧
      ∀ (clientId nextOrderId ticker : Nat) (price : Int) (order : OMOrder),
        (order.order_state = OMOrderState.DEAD ∨ order.order_state = OMOrderState.INVALID) →
        (moveOrder clientId nextOrderId position totalPnl cfg order ticker price side qty).1 =
          none) := by
  refine ⟨?_, ?_, ?_, ?_, ?_⟩
  · intro h; simp [checkPreTradeRisk, h]
  · intro h1 h2
    simp only [checkPreTradeRisk]
    rw [if_neg (by omega), if_pos h2]
  · intro h1 h2 h3
    simp only [checkPreTradeRisk]
    rw [if_neg (by omega), if_neg (by omega), if_pos h3]
  · intro h1 h2 h3
    simp only [checkPreTradeRisk]
    rw [if_neg (by omega), if_neg (by omega), if_neg h3]
  · intro h1 h2
    have hres : checkPreTradeRisk position totalPnl cfg side qty =
        RiskCheckResult.ORDER_TOO_LARGE := by
      simp [checkPreTradeRisk, h1, h2]
    refine ⟨hres, ?_⟩
    intro clientId nextOrderId ticker price order hst
    rcases order with ⟨t, i, s, p, q, st⟩
    rcases hst with h | h <;> simp_all [moveOrder] <;> intro <;> simp [hres]

/-- C8 witness: with max_order_size = 100, a qty-200 order on a flat
position is denied as ORDER_TOO_LARGE and a DEAD slot sends no NEW. -/
theorem c8_checkPreTradeRisk_witness :
    checkPreTradeRisk 0 0 ⟨100, 1000, -100⟩ Side.BUY 200 =
        RiskCheckResult.ORDER_TOO_LARGE ∧
    (moveOrder 1 5 0 0 ⟨100, 1000, -100⟩
        ⟨0, 0, Side.INVALID, Price_INVALID, 0, OMOrderState.DEAD⟩ 0 99
        Side.BUY 200).1 = none :=
  ⟨((c8_checkPreTradeRisk 0 0 ⟨100, 1000, -100⟩ Side.BUY 200).2.2.2.2 rfl rfl).1,
   ((c8_checkPreTradeRisk 0 0 ⟨100, 1000, -100⟩ Side.BUY 200).2.2.2.2 rfl rfl).2
     1 5 0 99 ⟨0, 0, Side.INVALID, Price_INVALID, 0, OMOrderState.DEAD⟩ (Or.inl rfl)⟩

/-- C9 counterexample. With bbo = (bid 99, ask 101), fair = 100.4 and
threshold = 0.5 the market maker computes bid = 99 (the bid gap
fair − bid = 1.4 is not below the threshold), not 98 as the claim
asserts. -/
theorem c9_mm_second_example_wrong :
    mmOnOrderBookUpdate 0 ⟨99, 101, 10, 10⟩ (some (502 / 5)) (1 / 2) 5 =
      some (0, 99, 101, 5) ∧ (99 : Int) ≠ 98 := by
  constructor
  · norm_num [mmOnOrderBookUpdate, mmQuotePrices, Price_INVALID]
  · decide

/-- C9 (amended). On a book update with both BBO sides and the fair
price valid, the market maker calls `moveOrders(ticker, bid, ask,
clip)` with bid = bbo.bid − (1 if fair − bbo.bid < threshold else 0)
and ask = bbo.ask + (1 if bbo.ask − fair < threshold else 0); with
bid 99 / ask 101, fair 100.0, threshold 0.5 this gives (99, 101), and
with fair 100.4 it also gives (99, 101). -/
theorem c9_mm_quotes (ticker : Nat) (bbo : BBO) (fair threshold : ℚ)
    (clip : Nat) (hb : bbo.bid_price ≠ Price_INVALID)
    (ha : bbo.ask_price ≠ Price_INVALID) :
    mmOnOrderBookUpdate ticker bbo (some fair) threshold clip =
      some (ticker,
        bbo.bid_price - (if fair - (bbo.bid_price : ℚ) < threshold then 1 else 0),
        bbo.ask_price + (if (bbo.ask_price : ℚ) - fair < threshold then 1 else 0),
        clip) ∧
    mmQuotePrices 99 101 (100 : ℚ) (1 / 2) = (99, 101) ∧
    mmQuotePrices 99 101 (502 / 5) (1 / 2) = (99, 101) := by
  refine ⟨?_, ?_, ?_⟩
  · simp only [mmOnOrderBookUpdate, mmQuotePrices, if_pos (And.intro hb ha)]
    have h1 : ∀ x t : ℚ, (if x ≥ t then (0 : Int) else 1) = if x < t then 1 else 0 := by
      intro x t
      rcases lt_or_le x t with h | h
      · rw [if_neg (not_le.mpr h), if_pos h]
      · rw [if_pos h, if_neg (not_lt.mpr h)]
    rw [h1, h1]
  · norm_num [mmQuotePrices]
  · norm_num [mmQuotePrices]

/-- C9 witness: a concrete valid BBO instantiating the amended
statement (fair 100.0, threshold 0.5 → quotes 99 / 101). -/
theorem c9_mm_quotes_witness :
    mmOnOrderBookUpdate 0 ⟨99, 101, 10, 10⟩ (some (100 : ℚ)) (1 / 2) 5 =
      some (0, 99 - (if (100 : ℚ) - (99 : Int) < 1 / 2 then 1 else 0),
        101 + (if ((101 : Int) : ℚ) - 100 < 1 / 2 then 1 else 0), 5) :=
  (c9_mm_quotes 0 ⟨99, 101, 10, 10⟩ 100 (1 / 2) 5 (by decide) (by decide)).1

/-- `updateBBO` behaviour per flag: a true flag leaves that side of
the cache consistent with the book it read; a false flag leaves that
side of the cache untouched. -/
theorem updateBBO_spec (b : MarketOrderBook) (ub ua : Bool) :
    (ub = true → (b.updateBBO ub ua).bidSideConsistent = true) ∧
    (ub = false → (b.updateBBO ub ua).bbo.bid_price = b.bbo.bid_price ∧
      (b.updateBBO ub ua).bbo.bid_qty = b.bbo.bid_qty) ∧
    (ua = true → (b.updateBBO ub ua).askSideConsistent = true) ∧
    (ua = false → (b.updateBBO ub ua).bbo.ask_price = b.bbo.ask_price ∧
      (b.updateBBO ub ua).bbo.ask_qty = b.bbo.ask_qty) := by
  cases ub <;> cases ua <;>
    cases hb : b.bids <;> cases ha : b.asks <;>
    simp [MarketOrderBook.updateBBO, MarketOrderBook.bidSideConsistent,
      MarketOrderBook.askSideConsistent, MarketOrderBook.levelData,
      MarketOrderBook.levelQtySum, hb, ha]

/-- `addOrdersAtPrice` does not touch the BBO cache. -/
theorem addOrdersAtPrice_bbo (b : MarketOrderBook) (nid : Nat)
    (d : MktLevelData) : (b.addOrdersAtPrice nid d).bbo = b.bbo := by
  simp only [MarketOrderBook.addOrdersAtPrice]
  cases d.side <;> simp

/-- `addOrder` does not touch the BBO cache. -/
theorem addOrder_bbo (b : MarketOrderBook) (o : MarketOrder) :
    (b.addOrder o).bbo = b.bbo := by
  simp only [MarketOrderBook.addOrder]
  cases h : b.getOrdersAtPrice o.price <;> simp [addOrdersAtPrice_bbo]

/-- `removeOrdersAtPrice` does not touch the BBO cache. -/
theorem removeOrdersAtPrice_bbo (b : MarketOrderBook) (side : Side)
    (price : Int) : (b.removeOrdersAtPrice side price).bbo = b.bbo := by
  simp only [MarketOrderBook.removeOrdersAtPrice]
  cases h : b.getOrdersAtPrice price <;> cases side <;> simp

/-- `removeOrder` does not touch the BBO cache. -/
theorem removeOrder_bbo (b : MarketOrderBook) (o : MarketOrder) :
    (b.removeOrder o).bbo = b.bbo := by
  simp only [MarketOrderBook.removeOrder]
  cases h : b.getOrdersAtPrice o.price
  · simp
  · dsimp only
    split <;> simp [removeOrdersAtPrice_bbo]

/-- Every non-TRADE branch of `onMarketUpdate` applies the update to
the book and then calls `updateBBO` with the two pre-computed flags;
the applied book carries the unchanged BBO cache. -/
theorem onMarketUpdate_shape (b : MarketOrderBook) (u : MEMarketUpdate)
    (ht : u.type ≠ MarketUpdateType.TRADE) :
    ∃ b1 : MarketOrderBook, b1.bbo = b.bbo ∧
      b.onMarketUpdate u = b1.updateBBO (b.bidUpdatedCond u) (b.askUpdatedCond u) := by
  rcases u with ⟨ty, oid, tid, uside, uprice, uqty, uprio⟩
  cases ty
  case TRADE => exact absurd rfl ht
  all_goals simp only [MarketOrderBook.onMarketUpdate]
  all_goals refine ⟨_, ?_, rfl⟩
  case ADD => exact addOrder_bbo b _
  case MODIFY => cases h : List.lookup oid b.orders <;> simp [h]
  case CANCEL => cases h : List.lookup oid b.orders <;> simp [h, removeOrder_bbo]
  all_goals rfl

/-- C5 counterexample. Applying an ADD of a BUY order to an empty
book leaves the cached BBO inconsistent: the update flags are
computed before the update on the pre-update (empty) side, so the
cache still holds the INVALID sentinel while the book has a best
bid. -/
theorem c5_bbo_stale_after_add_to_empty_side :
    (MarketOrderBook.empty.onMarketUpdate
        ⟨MarketUpdateType.ADD, 1, 0, Side.BUY, 100, 5, 1⟩).bidSideConsistent
      = false ∧
    (MarketOrderBook.empty.onMarketUpdate
        ⟨MarketUpdateType.ADD, 1, 0, Side.BUY, 100, 5, 1⟩).bids ≠ [] ∧
    (MarketOrderBook.empty.onMarketUpdate
        ⟨MarketUpdateType.ADD, 1, 0, Side.BUY, 100, 5, 1⟩).bbo.bid_price
      = Price_INVALID := by
  decide

/-- C5 (amended). For every applied non-TRADE update, each BBO side
is recomputed — and is then consistent with the post-update book —
exactly when the source's pre-update flag holds for it (the update
touches that side at a price at least as good as that side's
pre-update best, the side being non-empty before the update);
when the flag is false that side of the cache is left unchanged (so
an ADD to a previously empty side, or a CLEAR, can leave it stale). -/
theorem c5_bbo_refresh_condition (b : MarketOrderBook) (u : MEMarketUpdate)
    (ht : u.type ≠ MarketUpdateType.TRADE) :
    (b.bidUpdatedCond u = true →
      (b.onMarketUpdate u).bidSideConsistent = true) ∧
    (b.bidUpdatedCond u = false →
      (b.onMarketUpdate u).bbo.bid_price = b.bbo.bid_price ∧
      (b.onMarketUpdate u).bbo.bid_qty = b.bbo.bid_qty) ∧
    (b.askUpdatedCond u = true →
      (b.onMarketUpdate u).askSideConsistent = true) ∧
    (b.askUpdatedCond u = false →
      (b.onMarketUpdate u).bbo.ask_price = b.bbo.ask_price ∧
      (b.onMarketUpdate u).bbo.ask_qty = b.bbo.ask_qty) := by
  obtain ⟨b1, hb1, heq⟩ := onMarketUpdate_shape b u ht
  rw [heq]
  refine ⟨fun h => ?_, fun h => ?_, fun h => ?_, fun h => ?_⟩ <;> rw [h]
  · exact (updateBBO_spec b1 true _).1 rfl
  · exact ⟨(((updateBBO_spec b1 false _).2.1 rfl).1).trans (by rw [hb1]),
      (((updateBBO_spec b1 false _).2.1 rfl).2).trans (by rw [hb1])⟩
  · exact (updateBBO_spec b1 _ true).2.2.1 rfl
  · exact ⟨(((updateBBO_spec b1 _ false).2.2.2 rfl).1).trans (by rw [hb1]),
      (((updateBBO_spec b1 _ false).2.2.2 rfl).2).trans (by rw [hb1])⟩

/-- C5 witness: a MODIFY at the best (only) bid refreshes the cache,
which is then consistent. -/
theorem c5_bbo_refresh_condition_witness :
    ((MarketOrderBook.empty.onMarketUpdate
        ⟨MarketUpdateType.ADD, 1, 0, Side.BUY, 100, 5, 1⟩).onMarketUpdate
        ⟨MarketUpdateType.MODIFY, 1, 0, Side.BUY, 100, 3, 1⟩).bidSideConsistent
      = true :=
  (c5_bbo_refresh_condition
      (MarketOrderBook.empty.onMarketUpdate
        ⟨MarketUpdateType.ADD, 1, 0, Side.BUY, 100, 5, 1⟩)
      ⟨MarketUpdateType.MODIFY, 1, 0, Side.BUY, 100, 3, 1⟩
      (by decide)).1 (by decide)

/-- C10. The claim fails as a code bug: CLEAR deallocates the orders
and the linked levels and nulls the side heads but never clears
`price_orders_at_price_`, so after a CLEAR the map still points at
the freed level (the claimed invariant is false), and the next ADD at
that price follows the dangling pointer and appends to the freed,
unlinked level instead of creating a fresh one — the bid side stays
empty although a BUY order was added. -/
theorem c10_clear_leaves_dangling_price_map :
    (MarketOrderBook.empty.onMarketUpdate
        ⟨MarketUpdateType.ADD, 1, 0, Side.BUY, 100, 5, 1⟩).priceMapLinked
      = true ∧
    ((MarketOrderBook.empty.onMarketUpdate
        ⟨MarketUpdateType.ADD, 1, 0, Side.BUY, 100, 5, 1⟩).onMarketUpdate
        (clearRec 0)).priceMapLinked = false ∧
    (((MarketOrderBook.empty.onMarketUpdate
        ⟨MarketUpdateType.ADD, 1, 0, Side.BUY, 100, 5, 1⟩).onMarketUpdate
        (clearRec 0)).onMarketUpdate
        ⟨MarketUpdateType.ADD, 2, 0, Side.BUY, 100, 5, 2⟩).bids = [] ∧
    (((MarketOrderBook.empty.onMarketUpdate
        ⟨MarketUpdateType.ADD, 1, 0, Side.BUY, 100, 5, 1⟩).onMarketUpdate
        (clearRec 0)).onMarketUpdate
        ⟨MarketUpdateType.ADD, 2, 0, Side.BUY, 100, 5, 2⟩).orders.lookup 2
      = some ⟨2, Side.BUY, 100, 5, 2⟩ := by
  decide

/-- Folding `emitRecord` numbers the records consecutively from the
running counter. -/
theorem foldl_emitRecord (rs : List MEMarketUpdate)
    (acc : List MDPMarketUpdate) (n : Nat) :
    rs.foldl emitRecord (acc, n) = (acc ++ numberFrom n rs, n + rs.length) := by
  induction rs generalizing acc n with
  | nil => simp [numberFrom]
  | cons r rs ih =>
    simp only [List.foldl_cons, emitRecord, numberFrom]
    rw [ih]
    simp only [Prod.mk.injEq]
    refine ⟨by simp [List.append_assoc], by simp [List.length_cons]; omega⟩

/-- Numbering distributes over append, shifting the counter. -/
theorem numberFrom_append (xs ys : List MEMarketUpdate) (n : Nat) :
    numberFrom n (xs ++ ys) = numberFrom n xs ++ numberFrom (n + xs.length) ys := by
  induction xs generalizing n with
  | nil => simp [numberFrom]
  | cons x xs ih =>
    have harith : n + 1 + xs.length = n + (xs.length + 1) := by omega
    simp only [List.cons_append, numberFrom, List.length_cons]
    rw [show xs.append ys = xs ++ ys from rfl, ih, harith]

/-- The per-ticker fold of `publishSnapshot` emits, for each ticker
in order, its CLEAR record followed by its live records, numbered
consecutively. -/
theorem tickersFold (s : SnapshotSynthesizer) (tids : List Nat)
    (acc : List MDPMarketUpdate) (n : Nat) :
    tids.foldl (fun st tid => (tickerLiveRecords s tid).foldl emitRecord
        (emitRecord st (clearRec tid))) (acc, n) =
      (acc ++ numberFrom n (tids.flatMap
          (fun tid => clearRec tid :: tickerLiveRecords s tid)),
       n + (tids.flatMap (fun tid => clearRec tid :: tickerLiveRecords s tid)).length) := by
  induction tids generalizing acc n with
  | nil => simp [numberFrom]
  | cons t ts ih =>
    simp only [List.foldl_cons]
    have h1 : emitRecord (acc, n) (clearRec t) = (acc ++ [⟨n, clearRec t⟩], n + 1) := rfl
    rw [h1, foldl_emitRecord, ih]
    simp only [List.flatMap_cons, List.cons_append, Prod.mk.injEq]
    constructor
    · simp only [numberFrom, numberFrom_append]
      simp [List.append_assoc]
    · simp
      omega

/-- Membership in a numbered list comes from the underlying
records. -/
theorem mem_numberFrom (p : MDPMarketUpdate) (rs : List MEMarketUpdate)
    (n : Nat) (hp : p ∈ numberFrom n rs) : p.me_market_update ∈ rs := by
  induction rs generalizing n with
  | nil => simp [numberFrom] at hp
  | cons r rs ih =>
    simp only [numberFrom, List.mem_cons] at hp ⊢
    rcases hp with h | h
    · left; rw [h]
    · right; exact ih _ h

/-- C6. A published snapshot cycle is exactly: SNAPSHOT_START whose
order_id is the last applied incremental seq_num, then per ticker in
ascending id one CLEAR followed by the stored record of each live
shadow order, then SNAPSHOT_END with the same anchor, the snapshot
sequence numbers being 0, 1, 2, … from the start record; every
record between the delimiters is a CLEAR or a stored ADD (when the
shadow holds only ADD-typed records, as `addToSnapshot` maintains),
and `addToSnapshot` records exactly the consecutive incremental
seq_num as the anchor. -/
theorem c6_snapshot_cycle (s : SnapshotSynthesizer) :
    publishSnapshot s = numberFrom 0 (specSnapshotRecords s) ∧
    ((∀ tid oid u, s.orders tid oid = some u → u.type = MarketUpdateType.ADD) →
      ∀ p ∈ publishSnapshot s,
        p.me_market_update.type = MarketUpdateType.SNAPSHOT_START ∨
        p.me_market_update.type = MarketUpdateType.CLEAR ∨
        p.me_market_update.type = MarketUpdateType.ADD ∨
        p.me_market_update.type = MarketUpdateType.SNAPSHOT_END) ∧
    (∀ m s', addToSnapshot s m = some s' →
      s'.lastIncSeqNum = m.seq_num ∧ m.seq_num = s.lastIncSeqNum + 1) := by
  have hmain : publishSnapshot s = numberFrom 0 (specSnapshotRecords s) := by
    simp only [publishSnapshot, specSnapshotRecords]
    have h0 : emitRecord ([], 0) (snapshotStartRec s) = ([⟨0, snapshotStartRec s⟩], 1) := rfl
    rw [h0, tickersFold, emitRecord]
    simp only [numberFrom, numberFrom_append]
    simp [numberFrom]
  refine ⟨hmain, ?_, ?_⟩
  · intro hinv p hp
    rw [hmain] at hp
    have hmem := mem_numberFrom p _ _ hp
    simp only [specSnapshotRecords, List.mem_cons, List.mem_append,
      List.mem_flatMap, List.mem_singleton] at hmem
    rcases hmem with h | ⟨tid, _, h | h⟩ | h | h
    · left; rw [h]; rfl
    · right; left; rw [h]; rfl
    · simp only [tickerLiveRecords, List.mem_filterMap] at h
      rcases h with ⟨oid, _, h⟩
      right; right; left
      exact hinv tid oid _ h
    · right; right; right; rw [h]; rfl
    · simp at h
  · intro m s' h
    simp only [addToSnapshot] at h
    split at h
    · exact absurd h (by simp)
    · split at h
      · cases h
        exact ⟨rfl, by assumption⟩
      · exact absurd h (by simp)

/-- C6 witness: a synthesizer with one ticker and one live stored ADD
publishes the expected five-record cycle and only START / CLEAR /
ADD / END records. -/
theorem c6_snapshot_cycle_witness :
    (∀ p ∈ publishSnapshot
        ⟨1, 3, (fun tid oid => if tid = 0 ∧ oid = 1
          then some ⟨MarketUpdateType.ADD, 1, 0, Side.BUY, 100, 5, 1⟩
          else none), 7⟩,
      p.me_market_update.type = MarketUpdateType.SNAPSHOT_START ∨
      p.me_market_update.type = MarketUpdateType.CLEAR ∨
      p.me_market_update.type = MarketUpdateType.ADD ∨
      p.me_market_update.type = MarketUpdateType.SNAPSHOT_END) :=
  (c6_snapshot_cycle _).2.1 (by
    intro tid oid u h
    have h' : (if tid = 0 ∧ oid = 1
        then some (⟨MarketUpdateType.ADD, 1, 0, Side.BUY, 100, 5, 1⟩ : MEMarketUpdate)
        else none) = some u := h
    by_cases hc : tid = 0 ∧ oid = 1
    · rw [if_pos hc] at h'
      cases h'
      rfl
    · rw [if_neg hc] at h'
      cases h')

/-- C4. `cancel` with a failing lookup (client id out of range, or no
live order with that client_order_id for that client) emits exactly
one CANCEL_REJECTED client response, no market update, and leaves the
book unchanged; with a successful lookup it emits the CANCEL market
update (the order's market_order_id, side, price, qty 0, its
priority), removes the order (level removed with it when its FIFO
empties, inside `meRemoveOrder`), and emits a CANCELED client
response whose leaves_qty is the order's remaining qty. -/
theorem c4_cancel_semantics (book : MEBook) (client oid ticker : Nat) :
    (¬client < ME_MAX_NUM_CLIENTS → cidOidLookup book client oid = none) ∧
    (cidOidLookup book client oid = none →
      cancelOp book client oid ticker =
        ([Event.response ⟨ClientResponseType.CANCEL_REJECTED, client, ticker, oid,
            OrderId_INVALID, Side.INVALID, Price_INVALID, Qty_INVALID, Qty_INVALID⟩],
         book)) ∧
    (∀ ord, cidOidLookup book client oid = some ord →
      cancelOp book client oid ticker =
        ([Event.update ⟨MarketUpdateType.CANCEL, ord.market_order_id, ticker,
            ord.side, ord.price, 0, ord.priority⟩,
          Event.response ⟨ClientResponseType.CANCELED, client, ticker, oid,
            ord.market_order_id, ord.side, ord.price, Qty_INVALID, ord.qty⟩],
         meRemoveOrder book ord)) := by
  refine ⟨fun h => ?_, fun h => ?_, fun ord h => ?_⟩
  · simp [cidOidLookup, h]
  · simp [cancelOp, h]
  · simp [cancelOp, h]

/-- C4 witness: cancelling an unknown order id on an empty book is
rejected with a single response and no book change. -/
theorem c4_cancel_semantics_witness :
    cancelOp ⟨0, [], [], [], 1⟩ 1 999 0 =
      ([Event.response ⟨ClientResponseType.CANCEL_REJECTED, 1, 0, 999,
          OrderId_INVALID, Side.INVALID, Price_INVALID, Qty_INVALID, Qty_INVALID⟩],
       ⟨0, [], [], [], 1⟩) :=
  (c4_cancel_semantics ⟨0, [], [], [], 1⟩ 1 999 0).2.1 (by decide)

/-- Two fill sequences concatenate to a fill sequence. -/
theorem fillSeq_append (t c coid moid : Nat) (l1 l2 : List Event)
    (h1 : FillSeq t c coid moid l1) (h2 : FillSeq t c coid moid l2) :
    FillSeq t c coid moid (l1 ++ l2) := by
  induction h1 with
  | nil => exact h2
  | cons aggr pass trade tailU rest haggr hpass htrade htail _ ih =>
    exact FillSeq.cons aggr pass trade tailU _ haggr hpass htrade htail ih

/-- One `match` call emits exactly one claim-shaped fill block. -/
theorem matchStep_block (t c : Nat) (side : Side) (coid moid : Nat)
    (order : MEOrder) (leaves : Nat) :
    FillSeq t c coid moid (matchStep t c side coid moid order leaves).1 := by
  simp only [matchStep]
  split
  case isTrue h =>
    simp only [List.cons_append, List.nil_append]
    exact FillSeq.cons _ _ _ _ []
      ⟨rfl, rfl, rfl, rfl, rfl⟩ ⟨rfl, rfl⟩ ⟨rfl, rfl, rfl⟩
      ⟨rfl, fun _ => rfl, fun hne => absurd h hne⟩ FillSeq.nil
  case isFalse h =>
    simp only [List.cons_append, List.nil_append]
    exact FillSeq.cons _ _ _ _ []
      ⟨rfl, rfl, rfl, rfl, rfl⟩ ⟨rfl, rfl⟩ ⟨rfl, rfl, rfl⟩
      ⟨rfl, fun h0 => absurd h0 h, fun _ => ⟨rfl, rfl⟩⟩ FillSeq.nil

/-- The BUY-side matching loop emits a fill sequence. -/
theorem fillSeq_matchAsks (t c coid moid : Nat) (price : Int)
    (leaves : Nat) (asks : List MELevel) :
    FillSeq t c coid moid (matchAsksLoop t c coid moid price leaves asks).1 := by
  induction leaves, asks using matchAsksLoop.induct t c coid moid price with
  | case1 leaves => simp only [matchAsksLoop]; exact FillSeq.nil
  | case2 asks => simp only [matchAsksLoop]; exact FillSeq.nil
  | case3 l lside lp lf lrest restLvls h =>
    simp only [matchAsksLoop, if_pos h]; exact FillSeq.nil
  | case4 l lside lp lf restLvls h s ord' rest' hs =>
    simp only [matchAsksLoop, if_neg h]
    rw [show (matchStep t c Side.BUY coid moid lf (l + 1)).2.2 = some ord' from hs]
    exact matchStep_block t c Side.BUY coid moid lf (l + 1)
  | case5 l lside lp lf restLvls h s hs ih =>
    simp only [matchAsksLoop, if_neg h]
    rw [show (matchStep t c Side.BUY coid moid lf (l + 1)).2.2 = none from hs]
    exact fillSeq_append _ _ _ _ _ _
      (matchStep_block t c Side.BUY coid moid lf (l + 1)) ih
  | case6 l lside lp lf restLvls h s o os hs ih =>
    simp only [matchAsksLoop, if_neg h]
    rw [show (matchStep t c Side.BUY coid moid lf (l + 1)).2.2 = none from hs]
    exact fillSeq_append _ _ _ _ _ _
      (matchStep_block t c Side.BUY coid moid lf (l + 1)) ih

/-- The SELL-side matching loop emits a fill sequence. -/
theorem fillSeq_matchBids (t c coid moid : Nat) (price : Int)
    (leaves : Nat) (bids : List MELevel) :
    FillSeq t c coid moid (matchBidsLoop t c coid moid price leaves bids).1 := by
  induction leaves, bids using matchBidsLoop.induct t c coid moid price with
  | case1 leaves => simp only [matchBidsLoop]; exact FillSeq.nil
  | case2 bids => simp only [matchBidsLoop]; exact FillSeq.nil
  | case3 l lside lp lf lrest restLvls h =>
    simp only [matchBidsLoop, if_pos h]; exact FillSeq.nil
  | case4 l lside lp lf restLvls h s ord' rest' hs =>
    simp only [matchBidsLoop, if_neg h]
    rw [show (matchStep t c Side.SELL coid moid lf (l + 1)).2.2 = some ord' from hs]
    exact matchStep_block t c Side.SELL coid moid lf (l + 1)
  | case5 l lside lp lf restLvls h s hs ih =>
    simp only [matchBidsLoop, if_neg h]
    rw [show (matchStep t c Side.SELL coid moid lf (l + 1)).2.2 = none from hs]
    exact fillSeq_append _ _ _ _ _ _
      (matchStep_block t c Side.SELL coid moid lf (l + 1)) ih
  | case6 l lside lp lf restLvls h s o os hs ih =>
    simp only [matchBidsLoop, if_neg h]
    rw [show (matchStep t c Side.SELL coid moid lf (l + 1)).2.2 = none from hs]
    exact fillSeq_append _ _ _ _ _ _
      (matchStep_block t c Side.SELL coid moid lf (l + 1)) ih

/-- C3. For every add: the ACCEPTED response for the aggressor comes
first; the matching loop's events follow as a sequence of per-fill
blocks (aggressor FILLED, then passive FILLED, then TRADE, then the
passive order's CANCEL when it was fully filled, otherwise a MODIFY
with its remaining qty); and when leaves_qty > 0 remains, the ADD
market update for the resting remainder is emitted last. -/
theorem c3_add_event_ordering (book : MEBook) (client coid ticker : Nat)
    (side : Side) (price : Int) (qty : Nat) :
    (addOp book client coid ticker side price qty).1 =
      Event.response ⟨ClientResponseType.ACCEPTED, client, ticker, coid,
        book.nextMarketOrderId, side, price, 0, qty⟩ ::
      ((checkForMatch { book with nextMarketOrderId := book.nextMarketOrderId + 1 }
          client coid ticker side price qty book.nextMarketOrderId).1 ++
       (if (checkForMatch { book with nextMarketOrderId := book.nextMarketOrderId + 1 }
              client coid ticker side price qty book.nextMarketOrderId).2.2 ≠ 0 then
          [Event.update ⟨MarketUpdateType.ADD, book.nextMarketOrderId, ticker, side,
             price,
             (checkForMatch { book with nextMarketOrderId := book.nextMarketOrderId + 1 }
                client coid ticker side price qty book.nextMarketOrderId).2.2,
             getNextPriority
               (checkForMatch { book with nextMarketOrderId := book.nextMarketOrderId + 1 }
                  client coid ticker side price qty book.nextMarketOrderId).2.1 price⟩]
        else [])) ∧
    FillSeq ticker client coid book.nextMarketOrderId
      (checkForMatch { book with nextMarketOrderId := book.nextMarketOrderId + 1 }
        client coid ticker side price qty book.nextMarketOrderId).1 := by
  constructor
  · simp only [addOp]
    split
    case isTrue h => simp [if_pos h]
    case isFalse h => simp at h; simp [h]
  · cases side with
    | BUY => exact fillSeq_matchAsks ticker client coid book.nextMarketOrderId price qty _
    | SELL => exact fillSeq_matchBids ticker client coid book.nextMarketOrderId price qty _
    | INVALID => exact FillSeq.nil

/-- The second component of a `match` step is the decremented
leaves_qty, in both fill branches. -/
theorem matchStep_leaves (t c : Nat) (side : Side) (coid moid : Nat)
    (order : MEOrder) (leaves : Nat) :
    (matchStep t c side coid moid order leaves).2.1 =
      leaves - min leaves order.qty := by
  simp only [matchStep]
  split <;> rfl

/-- The BUY-side matching loop agrees with the claim's loop on the
resulting book side and leaves_qty, for well-formed levels. -/
theorem matchAsks_eq_spec (t c coid moid : Nat) (price : Int)
    (leaves : Nat) (asks : List MELevel) :
    LevelsWF asks →
      (matchAsksLoop t c coid moid price leaves asks).2 =
        (specMatchLoop Side.BUY price leaves asks).2 := by
  induction leaves, asks using matchAsksLoop.induct t c coid moid price with
  | case1 leaves =>
    intro _
    cases leaves <;> simp [matchAsksLoop, specMatchLoop]
  | case2 asks h =>
    intro _
    cases asks with
    | nil => simp [matchAsksLoop, specMatchLoop]
    | cons a as => simp [matchAsksLoop, specMatchLoop]
  | case3 l lside lp lf lrest restLvls h =>
    intro hwf
    have hp : lf.price = lp :=
      (hwf _ (List.mem_cons_self _ _) lf (by simp [MELevel.orders])).1
    simp only [matchAsksLoop, if_pos h, specMatchLoop]
    rw [if_neg]
    simp only [specCrosses]
    rw [← hp]
    simp
    omega
  | case4 l lside lp lf restLvls h s ord' rest' hs =>
    intro hwf
    have hp : lf.price = lp :=
      (hwf _ (List.mem_cons_self _ _) lf (by simp [MELevel.orders])).1
    have hs' : (matchStep t c Side.BUY coid moid lf (l + 1)).2.2 = some ord' := hs
    simp only [matchStep] at hs'
    split at hs'
    · exact absurd hs' (by simp)
    case isFalse hq =>
      have hord : ({ lf with qty := lf.qty - min (l + 1) lf.qty } : MEOrder) = ord' :=
        Option.some.inj hs'
      have hl0 : l + 1 - min (l + 1) lf.qty = 0 := by omega
      simp only [matchAsksLoop, if_neg h]
      rw [show (matchStep t c Side.BUY coid moid lf (l + 1)).2.2 = some ord' from hs]
      simp only [specMatchLoop]
      rw [if_pos (by simp only [specCrosses]; rw [← hp]; simp; omega)]
      rw [dif_neg hq]
      rw [matchStep_leaves, hl0]
      simp only [specMatchLoop]
      rw [← hord]
  | case5 l lside lp lf restLvls h s hs ih =>
    intro hwf
    have hp : lf.price = lp :=
      (hwf _ (List.mem_cons_self _ _) lf (by simp [MELevel.orders])).1
    have hs' : (matchStep t c Side.BUY coid moid lf (l + 1)).2.2 = none := hs
    simp only [matchStep] at hs'
    split at hs'
    case isFalse hq => exact absurd hs' (by simp)
    case isTrue hq =>
      have hwr : LevelsWF restLvls := fun lvl hm => hwf lvl (List.mem_cons_of_mem _ hm)
      simp only [matchAsksLoop, if_neg h]
      rw [show (matchStep t c Side.BUY coid moid lf (l + 1)).2.2 = none from hs]
      simp only [specMatchLoop]
      rw [if_pos (by simp only [specCrosses]; rw [← hp]; simp; omega)]
      rw [dif_pos hq]
      rw [ih hwr, matchStep_leaves]
  | case6 l lside lp lf restLvls h s o os hs ih =>
    intro hwf
    have hp : lf.price = lp :=
      (hwf _ (List.mem_cons_self _ _) lf (by simp [MELevel.orders])).1
    have hs' : (matchStep t c Side.BUY coid moid lf (l + 1)).2.2 = none := hs
    simp only [matchStep] at hs'
    split at hs'
    case isFalse hq => exact absurd hs' (by simp)
    case isTrue hq =>
      have hwr : LevelsWF (⟨lside, lp, o, os⟩ :: restLvls) := by
        intro lvl hm
        rcases List.mem_cons.mp hm with hm | hm
        · subst hm
          intro x hx
          exact hwf _ (List.mem_cons_self _ _) x
            (by
              have hx' : x ∈ o :: os := hx
              exact List.mem_cons_of_mem _ hx')
        · exact hwf lvl (List.mem_cons_of_mem _ hm)
      simp only [matchAsksLoop, if_neg h]
      rw [show (matchStep t c Side.BUY coid moid lf (l + 1)).2.2 = none from hs]
      simp only [specMatchLoop]
      rw [if_pos (by simp only [specCrosses]; rw [← hp]; simp; omega)]
      rw [dif_pos hq]
      rw [ih hwr, matchStep_leaves]

/-- The SELL-side matching loop agrees with the claim's loop on the
resulting book side and leaves_qty, for well-formed levels. -/
theorem matchBids_eq_spec (t c coid moid : Nat) (price : Int)
    (leaves : Nat) (bids : List MELevel) :
    LevelsWF bids →
      (matchBidsLoop t c coid moid price leaves bids).2 =
        (specMatchLoop Side.SELL price leaves bids).2 := by
  induction leaves, bids using matchBidsLoop.induct t c coid moid price with
  | case1 leaves =>
    intro _
    cases leaves <;> simp [matchBidsLoop, specMatchLoop]
  | case2 bids h =>
    intro _
    cases bids with
    | nil => simp [matchBidsLoop, specMatchLoop]
    | cons a as => simp [matchBidsLoop, specMatchLoop]
  | case3 l lside lp lf lrest restLvls h =>
    intro hwf
    have hp : lf.price = lp :=
      (hwf _ (List.mem_cons_self _ _) lf (by simp [MELevel.orders])).1
    simp only [matchBidsLoop, if_pos h, specMatchLoop]
    rw [if_neg]
    simp only [specCrosses]
    rw [← hp]
    simp
    omega
  | case4 l lside lp lf restLvls h s ord' rest' hs =>
    intro hwf
    have hp : lf.price = lp :=
      (hwf _ (List.mem_cons_self _ _) lf (by simp [MELevel.orders])).1
    have hs' : (matchStep t c Side.SELL coid moid lf (l + 1)).2.2 = some ord' := hs
    simp only [matchStep] at hs'
    split at hs'
    · exact absurd hs' (by simp)
    case isFalse hq =>
      have hord : ({ lf with qty := lf.qty - min (l + 1) lf.qty } : MEOrder) = ord' :=
        Option.some.inj hs'
      have hl0 : l + 1 - min (l + 1) lf.qty = 0 := by omega
      simp only [matchBidsLoop, if_neg h]
      rw [show (matchStep t c Side.SELL coid moid lf (l + 1)).2.2 = some ord' from hs]
      simp only [specMatchLoop]
      rw [if_pos (by simp only [specCrosses]; rw [← hp]; simp; omega)]
      rw [dif_neg hq]
      rw [matchStep_leaves, hl0]
      simp only [specMatchLoop]
      rw [← hord]
  | case5 l lside lp lf restLvls h s hs ih =>
    intro hwf
    have hp : lf.price = lp :=
      (hwf _ (List.mem_cons_self _ _) lf (by simp [MELevel.orders])).1
    have hs' : (matchStep t c Side.SELL coid moid lf (l + 1)).2.2 = none := hs
    simp only [matchStep] at hs'
    split at hs'
    case isFalse hq => exact absurd hs' (by simp)
    case isTrue hq =>
      have hwr : LevelsWF restLvls := fun lvl hm => hwf lvl (List.mem_cons_of_mem _ hm)
      simp only [matchBidsLoop, if_neg h]
      rw [show (matchStep t c Side.SELL coid moid lf (l + 1)).2.2 = none from hs]
      simp only [specMatchLoop]
      rw [if_pos (by simp only [specCrosses]; rw [← hp]; simp; omega)]
      rw [dif_pos hq]
      rw [ih hwr, matchStep_leaves]
  | case6 l lside lp lf restLvls h s o os hs ih =>
    intro hwf
    have hp : lf.price = lp :=
      (hwf _ (List.mem_cons_self _ _) lf (by simp [MELevel.orders])).1
    have hs' : (matchStep t c Side.SELL coid moid lf (l + 1)).2.2 = none := hs
    simp only [matchStep] at hs'
    split at hs'
    case isFalse hq => exact absurd hs' (by simp)
    case isTrue hq =>
      have hwr : LevelsWF (⟨lside, lp, o, os⟩ :: restLvls) := by
        intro lvl hm
        rcases List.mem_cons.mp hm with hm | hm
        · subst hm
          intro x hx
          exact hwf _ (List.mem_cons_self _ _) x
            (by
              have hx' : x ∈ o :: os := hx
              exact List.mem_cons_of_mem _ hx')
        · exact hwf lvl (List.mem_cons_of_mem _ hm)
      simp only [matchBidsLoop, if_neg h]
      rw [show (matchStep t c Side.SELL coid moid lf (l + 1)).2.2 = none from hs]
      simp only [specMatchLoop]
      rw [if_pos (by simp only [specCrosses]; rw [← hp]; simp; omega)]
      rw [dif_pos hq]
      rw [ih hwr, matchStep_leaves]

/-- On exit of the BUY-side loop, leaves_qty is zero or no crossable
ask level remains. -/
theorem matchAsks_stops (t c coid moid : Nat) (price : Int)
    (leaves : Nat) (asks : List MELevel) :
    LevelsWF asks →
      (matchAsksLoop t c coid moid price leaves asks).2.2 = 0 ∨
      noCrossable Side.BUY price
        (matchAsksLoop t c coid moid price leaves asks).2.1 = true := by
  induction leaves, asks using matchAsksLoop.induct t c coid moid price with
  | case1 leaves => intro _; right; simp [matchAsksLoop, noCrossable]
  | case2 asks h => intro _; left; simp [matchAsksLoop]
  | case3 l lside lp lf lrest restLvls h =>
    intro hwf
    have hp : lf.price = lp :=
      (hwf _ (List.mem_cons_self _ _) lf (by simp [MELevel.orders])).1
    right
    simp only [matchAsksLoop, if_pos h, noCrossable, specCrosses]
    rw [← hp]
    simp
    omega
  | case4 l lside lp lf restLvls h s ord' rest' hs =>
    intro hwf
    have hs' : (matchStep t c Side.BUY coid moid lf (l + 1)).2.2 = some ord' := hs
    simp only [matchStep] at hs'
    split at hs'
    · exact absurd hs' (by simp)
    case isFalse hq =>
      left
      simp only [matchAsksLoop, if_neg h]
      rw [show (matchStep t c Side.BUY coid moid lf (l + 1)).2.2 = some ord' from hs]
      show (matchStep t c Side.BUY coid moid lf (l + 1)).2.1 = 0
      rw [matchStep_leaves]
      omega
  | case5 l lside lp lf restLvls h s hs ih =>
    intro hwf
    have hwr : LevelsWF restLvls := fun lvl hm => hwf lvl (List.mem_cons_of_mem _ hm)
    simp only [matchAsksLoop, if_neg h]
    rw [show (matchStep t c Side.BUY coid moid lf (l + 1)).2.2 = none from hs]
    exact ih hwr
  | case6 l lside lp lf restLvls h s o os hs ih =>
    intro hwf
    have hwr : LevelsWF (⟨lside, lp, o, os⟩ :: restLvls) := by
      intro lvl hm
      rcases List.mem_cons.mp hm with hm | hm
      · subst hm
        intro x hx
        exact hwf _ (List.mem_cons_self _ _) x
          (by
            have hx' : x ∈ o :: os := hx
            exact List.mem_cons_of_mem _ hx')
      · exact hwf lvl (List.mem_cons_of_mem _ hm)
    simp only [matchAsksLoop, if_neg h]
    rw [show (matchStep t c Side.BUY coid moid lf (l + 1)).2.2 = none from hs]
    exact ih hwr

/-- On exit of the SELL-side loop, leaves_qty is zero or no crossable
bid level remains. -/
theorem matchBids_stops (t c coid moid : Nat) (price : Int)
    (leaves : Nat) (bids : List MELevel) :
    LevelsWF bids →
      (matchBidsLoop t c coid moid price leaves bids).2.2 = 0 ∨
      noCrossable Side.SELL price
        (matchBidsLoop t c coid moid price leaves bids).2.1 = true := by
  induction leaves, bids using matchBidsLoop.induct t c coid moid price with
  | case1 leaves => intro _; right; simp [matchBidsLoop, noCrossable]
  | case2 bids h => intro _; left; simp [matchBidsLoop]
  | case3 l lside lp lf lrest restLvls h =>
    intro hwf
    have hp : lf.price = lp :=
      (hwf _ (List.mem_cons_self _ _) lf (by simp [MELevel.orders])).1
    right
    simp only [matchBidsLoop, if_pos h, noCrossable, specCrosses]
    rw [← hp]
    simp
    omega
  | case4 l lside lp lf restLvls h s ord' rest' hs =>
    intro hwf
    have hs' : (matchStep t c Side.SELL coid moid lf (l + 1)).2.2 = some ord' := hs
    simp only [matchStep] at hs'
    split at hs'
    · exact absurd hs' (by simp)
    case isFalse hq =>
      left
      simp only [matchBidsLoop, if_neg h]
      rw [show (matchStep t c Side.SELL coid moid lf (l + 1)).2.2 = some ord' from hs]
      show (matchStep t c Side.SELL coid moid lf (l + 1)).2.1 = 0
      rw [matchStep_leaves]
      omega
  | case5 l lside lp lf restLvls h s hs ih =>
    intro hwf
    have hwr : LevelsWF restLvls := fun lvl hm => hwf lvl (List.mem_cons_of_mem _ hm)
    simp only [matchBidsLoop, if_neg h]
    rw [show (matchStep t c Side.SELL coid moid lf (l + 1)).2.2 = none from hs]
    exact ih hwr
  | case6 l lside lp lf restLvls h s o os hs ih =>
    intro hwf
    have hwr : LevelsWF (⟨lside, lp, o, os⟩ :: restLvls) := by
      intro lvl hm
      rcases List.mem_cons.mp hm with hm | hm
      · subst hm
        intro x hx
        exact hwf _ (List.mem_cons_self _ _) x
          (by
            have hx' : x ∈ o :: os := hx
            exact List.mem_cons_of_mem _ hx')
      · exact hwf lvl (List.mem_cons_of_mem _ hm)
    simp only [matchBidsLoop, if_neg h]
    rw [show (matchStep t c Side.SELL coid moid lf (l + 1)).2.2 = none from hs]
    exact ih hwr

/-- C1. For a well-formed book, `checkForMatch` — the matching pass
`add` runs — behaves exactly as the claim's price-time-priority loop
on either side: a BUY consumes the ask side and a SELL the bid side
precisely as the spec loop does (the first order of the best
crossable level is filled by min(leaves, passive.qty), both decrement,
emptied orders and levels are removed, possibly across several orders
and levels), the opposite side is untouched, and the loop stops
exactly when leaves_qty = 0 or no crossable level remains. -/
theorem c1_price_time_priority (book : MEBook) (client coid ticker : Nat)
    (price : Int) (qty moid : Nat)
    (hwa : LevelsWF book.asks) (hwb : LevelsWF book.bids) :
    ((checkForMatch book client coid ticker Side.BUY price qty moid).2.1.asks =
        (specMatchLoop Side.BUY price qty book.asks).2.1 ∧
      (checkForMatch book client coid ticker Side.BUY price qty moid).2.1.bids =
        book.bids ∧
      (checkForMatch book client coid ticker Side.BUY price qty moid).2.2 =
        (specMatchLoop Side.BUY price qty book.asks).2.2 ∧
      ((checkForMatch book client coid ticker Side.BUY price qty moid).2.2 = 0 ∨
        noCrossable Side.BUY price
          (checkForMatch book client coid ticker Side.BUY price qty moid).2.1.asks
          = true)) ∧
    ((checkForMatch book client coid ticker Side.SELL price qty moid).2.1.bids =
        (specMatchLoop Side.SELL price qty book.bids).2.1 ∧
      (checkForMatch book client coid ticker Side.SELL price qty moid).2.1.asks =
        book.asks ∧
      (checkForMatch book client coid ticker Side.SELL price qty moid).2.2 =
        (specMatchLoop Side.SELL price qty book.bids).2.2 ∧
      ((checkForMatch book client coid ticker Side.SELL price qty moid).2.2 = 0 ∨
        noCrossable Side.SELL price
          (checkForMatch book client coid ticker Side.SELL price qty moid).2.1.bids
          = true)) := by
  have ha := matchAsks_eq_spec ticker client coid moid price qty book.asks hwa
  have hb := matchBids_eq_spec ticker client coid moid price qty book.bids hwb
  have hsa := matchAsks_stops ticker client coid moid price qty book.asks hwa
  have hsb := matchBids_stops ticker client coid moid price qty book.bids hwb
  constructor
  · refine ⟨?_, rfl, ?_, ?_⟩
    · simpa [checkForMatch] using congrArg Prod.fst ha
    · simpa [checkForMatch] using congrArg (fun p => p.2) ha
    · simpa [checkForMatch] using hsa
  · refine ⟨?_, rfl, ?_, ?_⟩
    · simpa [checkForMatch] using congrArg Prod.fst hb
    · simpa [checkForMatch] using congrArg (fun p => p.2) hb
    · simpa [checkForMatch] using hsb

/-- C1 witness: a BUY at 101 for 12 against asks 100×5 and
101×(3 then 7) sweeps both levels and three orders, leaving 3 on the
last passive order and leaves_qty 0, as the spec loop prescribes. -/
theorem c1_price_time_priority_witness :
    (checkForMatch
        ⟨0, [],
         [⟨Side.SELL, 100, ⟨0, 1, 1, 1, Side.SELL, 100, 5, 1⟩, []⟩,
          ⟨Side.SELL, 101, ⟨0, 1, 2, 2, Side.SELL, 101, 3, 1⟩,
            [⟨0, 2, 3, 3, Side.SELL, 101, 7, 2⟩]⟩],
         [], 4⟩ 3 4 0 Side.BUY 101 12 4).2.2 =
      (specMatchLoop Side.BUY 101 12
        [⟨Side.SELL, 100, ⟨0, 1, 1, 1, Side.SELL, 100, 5, 1⟩, []⟩,
         ⟨Side.SELL, 101, ⟨0, 1, 2, 2, Side.SELL, 101, 3, 1⟩,
           [⟨0, 2, 3, 3, Side.SELL, 101, 7, 2⟩]⟩]).2.2 :=
  ((c1_price_time_priority
    ⟨0, [],
     [⟨Side.SELL, 100, ⟨0, 1, 1, 1, Side.SELL, 100, 5, 1⟩, []⟩,
      ⟨Side.SELL, 101, ⟨0, 1, 2, 2, Side.SELL, 101, 3, 1⟩,
        [⟨0, 2, 3, 3, Side.SELL, 101, 7, 2⟩]⟩],
     [], 4⟩ 3 4 0 101 12 4 (by decide) (by decide)).1).2.2.1

end ZQuant
